import Mathlib

/-!
Verification of the blendmate message bridge (Blender add-on side).

This file gives a shallow embedding, in Lean, of the parts of the add-on
that the verified properties speak about:

* `commands/resolver.py` — the safe path tokenizer and resolver;
* `protocol.py` — envelope construction, response building, legacy wrapping;
* `connection.py` — response rendering (`make_response`), the
  `protocol.upgrade` branch of `handle_request`, `send_to_blendmate`,
  `on_ws_message` and `process_pending_requests`;
* `throttle.py` — the coalescing engine (`throttle_event`,
  `_flush_pending_events`);
* `commands/handlers.py` — `cmd_operator_call` and
  `cmd_property_set_batch`, and the error-code classification from
  `handle_request`.

Python dictionaries are modelled as association lists with Python's
insertion-order update semantics; JSON values as an inductive type.
Nondeterministic inputs of the real code (wall-clock timestamps, uuid
short ids) are passed in as explicit parameters.  Host (Blender) state is
abstracted behind explicit function parameters, so that theorems about
"no host access" can be stated as independence from those parameters.
-/

namespace Blendmate

/-! ## JSON-like values and Python dict operations -/

/-- A JSON-like value, the payload universe of all wire messages. -/
inductive JVal where
  | null
  | bool (b : Bool)
  | int (n : Int)
  | str (s : String)
  | arr (xs : List JVal)
  | obj (fields : List (String × JVal))

mutual

/-- Decidable structural equality on `JVal` (Python `==` on JSON trees). -/
def decJ : (a b : JVal) → Decidable (a = b)
  | JVal.null, JVal.null => isTrue rfl
  | JVal.null, JVal.bool _ => isFalse (fun h => JVal.noConfusion h)
  | JVal.null, JVal.int _ => isFalse (fun h => JVal.noConfusion h)
  | JVal.null, JVal.str _ => isFalse (fun h => JVal.noConfusion h)
  | JVal.null, JVal.arr _ => isFalse (fun h => JVal.noConfusion h)
  | JVal.null, JVal.obj _ => isFalse (fun h => JVal.noConfusion h)
  | JVal.bool _, JVal.null => isFalse (fun h => JVal.noConfusion h)
  | JVal.bool a, JVal.bool b =>
      if h : a = b then isTrue (congrArg JVal.bool h)
      else isFalse (fun he => h (JVal.bool.inj he))
  | JVal.bool _, JVal.int _ => isFalse (fun h => JVal.noConfusion h)
  | JVal.bool _, JVal.str _ => isFalse (fun h => JVal.noConfusion h)
  | JVal.bool _, JVal.arr _ => isFalse (fun h => JVal.noConfusion h)
  | JVal.bool _, JVal.obj _ => isFalse (fun h => JVal.noConfusion h)
  | JVal.int _, JVal.null => isFalse (fun h => JVal.noConfusion h)
  | JVal.int _, JVal.bool _ => isFalse (fun h => JVal.noConfusion h)
  | JVal.int a, JVal.int b =>
      if h : a = b then isTrue (congrArg JVal.int h)
      else isFalse (fun he => h (JVal.int.inj he))
  | JVal.int _, JVal.str _ => isFalse (fun h => JVal.noConfusion h)
  | JVal.int _, JVal.arr _ => isFalse (fun h => JVal.noConfusion h)
  | JVal.int _, JVal.obj _ => isFalse (fun h => JVal.noConfusion h)
  | JVal.str _, JVal.null => isFalse (fun h => JVal.noConfusion h)
  | JVal.str _, JVal.bool _ => isFalse (fun h => JVal.noConfusion h)
  | JVal.str _, JVal.int _ => isFalse (fun h => JVal.noConfusion h)
  | JVal.str a, JVal.str b =>
      if h : a = b then isTrue (congrArg JVal.str h)
      else isFalse (fun he => h (JVal.str.inj he))
  | JVal.str _, JVal.arr _ => isFalse (fun h => JVal.noConfusion h)
  | JVal.str _, JVal.obj _ => isFalse (fun h => JVal.noConfusion h)
  | JVal.arr _, JVal.null => isFalse (fun h => JVal.noConfusion h)
  | JVal.arr _, JVal.bool _ => isFalse (fun h => JVal.noConfusion h)
  | JVal.arr _, JVal.int _ => isFalse (fun h => JVal.noConfusion h)
  | JVal.arr _, JVal.str _ => isFalse (fun h => JVal.noConfusion h)
  | JVal.arr xs, JVal.arr ys =>
      match decL xs ys with
      | isTrue h => isTrue (congrArg JVal.arr h)
      | isFalse h => isFalse (fun he => h (JVal.arr.inj he))
  | JVal.arr _, JVal.obj _ => isFalse (fun h => JVal.noConfusion h)
  | JVal.obj _, JVal.null => isFalse (fun h => JVal.noConfusion h)
  | JVal.obj _, JVal.bool _ => isFalse (fun h => JVal.noConfusion h)
  | JVal.obj _, JVal.int _ => isFalse (fun h => JVal.noConfusion h)
  | JVal.obj _, JVal.str _ => isFalse (fun h => JVal.noConfusion h)
  | JVal.obj _, JVal.arr _ => isFalse (fun h => JVal.noConfusion h)
  | JVal.obj fs, JVal.obj gs =>
      match decF fs gs with
      | isTrue h => isTrue (congrArg JVal.obj h)
      | isFalse h => isFalse (fun he => h (JVal.obj.inj he))

/-- Decidable equality on lists of `JVal`. -/
def decL : (xs ys : List JVal) → Decidable (xs = ys)
  | [], [] => isTrue rfl
  | [], _ :: _ => isFalse (fun h => List.noConfusion h)
  | _ :: _, [] => isFalse (fun h => List.noConfusion h)
  | x :: xs, y :: ys =>
      match decJ x y with
      | isFalse h => isFalse (fun he => h (List.cons.inj he).1)
      | isTrue h1 =>
        match decL xs ys with
        | isTrue h2 => isTrue (by rw [h1, h2])
        | isFalse h2 => isFalse (fun he => h2 (List.cons.inj he).2)

/-- Decidable equality on association lists of `JVal`. -/
def decF : (xs ys : List (String × JVal)) → Decidable (xs = ys)
  | [], [] => isTrue rfl
  | [], _ :: _ => isFalse (fun h => List.noConfusion h)
  | _ :: _, [] => isFalse (fun h => List.noConfusion h)
  | (k, v) :: xs, (k', v') :: ys =>
      if hk : k = k' then
        match decJ v v' with
        | isFalse h => isFalse (fun he => h (Prod.mk.inj (List.cons.inj he).1).2)
        | isTrue h1 =>
          match decF xs ys with
          | isTrue h2 => isTrue (by rw [hk, h1, h2])
          | isFalse h2 => isFalse (fun he => h2 (List.cons.inj he).2)
      else isFalse (fun he => hk (Prod.mk.inj (List.cons.inj he).1).1)

end

instance : DecidableEq JVal := decJ

/-- A Python dict with string keys, as an association list in insertion
order (Python 3.7+ dicts preserve insertion order). -/
abbrev JDict := List (String × JVal)

/-- `d.get(k)` / `d[k]`: first binding of `k`, if any. -/
def jget (d : JDict) (k : String) : Option JVal :=
  match d with
  | [] => none
  | (k', v) :: rest => if k' = k then some v else jget rest k

/-- `d[k] = v`: update in place if the key is present, else append
(Python dict assignment keeps the original position of an existing key). -/
def jset (d : JDict) (k : String) (v : JVal) : JDict :=
  match d with
  | [] => [(k, v)]
  | (k', v') :: rest => if k' = k then (k, v) :: rest else (k', v') :: jset rest k v

/-- `k in d`. -/
def hasKey (d : JDict) (k : String) : Bool :=
  (jget d k).isSome

/-- Python truthiness of a JSON value (`if x:`). -/
def pyTruthy : JVal → Bool
  | JVal.null => false
  | JVal.bool b => b
  | JVal.int n => n != 0
  | JVal.str s => s != ""
  | JVal.arr xs => !xs.isEmpty
  | JVal.obj fs => !fs.isEmpty

/-- Python `str()` of a JSON value, as far as the claims exercise it
(scalars; container reprs are not exercised by any claim and are elided). -/
def pyStr : JVal → String
  | JVal.null => "None"
  | JVal.bool b => if b then "True" else "False"
  | JVal.int n => toString n
  | JVal.str s => s
  | JVal.arr _ => "<list>"
  | JVal.obj _ => "<dict>"

/-- Truthiness of an `Optional[str]` (`None` and `""` are falsy). -/
def truthyOptStr : Option String → Bool
  | none => false
  | some s => s != ""

/-! ## `commands/resolver.py` — path grammar

`SEGMENT_PATTERN` matches, at a given position, one of
`(?P<attr>[a-zA-Z_][a-zA-Z0-9_]*)`, `\[(?P<strkey>'[^']*'|"[^"]*")\]`,
`\[(?P<intkey>-?\d+)\]`.  The three productions are distinguished by their
first one or two characters, so the alternation is deterministic. -/

/-- One segment of a resolved path (`('attr', name)`, `('key', key)`,
`('index', int)` in the source). -/
inductive Seg where
  | attr (name : String)
  | key (k : String)
  | index (i : Int)
deriving DecidableEq

/-- `[a-zA-Z_]`: first character of the `attr` production. -/
def isIdentStart (c : Char) : Bool := c.isAlpha || c = '_'

/-- `[a-zA-Z0-9_]`: continuation characters of the `attr` production. -/
def isIdentChar (c : Char) : Bool := c.isAlpha || c.isDigit || c = '_'

/-- The `attr` production at the head of `cs`: a maximal identifier run. -/
def matchAttr (cs : List Char) : Option (String × List Char) :=
  match cs with
  | [] => none
  | c :: rest =>
      if isIdentStart c then
        some (String.mk (c :: rest.takeWhile isIdentChar), rest.dropWhile isIdentChar)
      else none

/-- The `strkey` production at the head of `cs`:
`['…']` or `["…"]`, the content free of the quote character. -/
def matchStrKey (cs : List Char) : Option (String × List Char) :=
  match cs with
  | '[' :: q :: rest =>
      if q = '\'' || q = '"' then
        match rest.dropWhile (fun c => c ≠ q) with
        | _ :: ']' :: rest2 => some (String.mk (rest.takeWhile (fun c => c ≠ q)), rest2)
        | _ => none
      else none
  | _ => none

/-- Value of a digit run (most significant first). -/
def digitsToNat (ds : List Char) : Nat :=
  ds.foldl (fun acc c => acc * 10 + (c.toNat - '0'.toNat)) 0

/-- The `intkey` production at the head of `cs`: `[N]`, `N` possibly
negative. -/
def matchIntKey (cs : List Char) : Option (Int × List Char) :=
  match cs with
  | '[' :: rest =>
      let (neg, rest1) :=
        match rest with
        | '-' :: t => (true, t)
        | _ => (false, rest)
      let digits := rest1.takeWhile Char.isDigit
      if digits.isEmpty then none
      else
        match rest1.dropWhile Char.isDigit with
        | ']' :: rest2 =>
            let n : Int := Int.ofNat (digitsToNat digits)
            some (if neg then -n else n, rest2)
        | _ => none
  | _ => none

/-- The tokenizer loop of `tokenize_path`: skip `.`, else match one
segment production at the current position, else raise
`ValueError("Invalid path syntax at position {pos}: {path[pos:]}")`
(modelled as an error carrying the position and the remaining text).
The fuel argument only drives structural recursion; each step consumes at
least one character, and the entry point passes `length + 1` fuel. -/
def tokAux (fuel : Nat) (cs : List Char) (pos : Nat) :
    Except (Nat × String) (List Seg) :=
  match fuel with
  | 0 => Except.error (pos, String.mk cs)
  | fuel' + 1 =>
    match cs with
    | [] => Except.ok []
    | '.' :: rest => tokAux fuel' rest (pos + 1)
    | _ =>
      match matchAttr cs with
      | some (name, rest) =>
          (tokAux fuel' rest (pos + (cs.length - rest.length))).map
            (fun segs => Seg.attr name :: segs)
      | none =>
        match matchStrKey cs with
        | some (k, rest) =>
            (tokAux fuel' rest (pos + (cs.length - rest.length))).map
              (fun segs => Seg.key k :: segs)
        | none =>
          match matchIntKey cs with
          | some (n, rest) =>
              (tokAux fuel' rest (pos + (cs.length - rest.length))).map
                (fun segs => Seg.index n :: segs)
          | none => Except.error (pos, String.mk cs)

/-- `tokenize_path`: tokenize a path string into segments, or fail with a
position-tagged error. -/
def tokenize_path (path : String) : Except (Nat × String) (List Seg) :=
  tokAux (path.toList.length + 1) path.toList 0

/-- `ALLOWED_ROOTS`: the whitelisted root collections of `bpy.data`
(a Python set; only membership is used). -/
def ALLOWED_ROOTS : List String :=
  ["objects", "meshes", "materials", "node_groups", "collections",
   "lights", "cameras", "curves", "textures", "images", "armatures",
   "actions", "particles", "worlds", "scenes", "texts", "fonts",
   "grease_pencils", "libraries", "brushes", "palettes", "lattices"]

/-- Rendering of the allowed-set suffix of the unknown-root error message
(`f". Allowed: {ALLOWED_ROOTS}"`; Python renders the set in unspecified
order, here it is rendered in the list order above). -/
def allowedRootsSuffix : String :=
  ". Allowed: " ++ toString ALLOWED_ROOTS

/-- The Blender host graph, abstracted: attribute lookup
(`hasattr`/`getattr`, `none` = no such attribute), presence of a `get`
method, `.get(key)` lookup (`none` = key absent / `get` returned `None`),
and `obj[i]` indexing (`none` = the access raised).  `dataAttr` is
`getattr(bpy.data, root)`. -/
structure HostAPI (H : Type) where
  getattrFn : H → String → Option H
  hasGet : H → Bool
  getKey : H → String → Option H
  getIndex : H → Int → Option H
  dataAttr : String → H

/-- The segment walk of `resolve_path` (its loop over `segments[1:]`). -/
def resolveSegments {H : Type} (api : HostAPI H) (obj : H) (segs : List Seg) :
    Except String H :=
  match segs with
  | [] => Except.ok obj
  | Seg.attr v :: rest =>
      match api.getattrFn obj v with
      | none => Except.error ("Object has no attribute '" ++ v ++ "'")
      | some o => resolveSegments api o rest
  | Seg.key v :: rest =>
      if api.hasGet obj then
        match api.getKey obj v with
        | none => Except.error ("Key '" ++ v ++ "' not found")
        | some o => resolveSegments api o rest
      else Except.error "Cannot use key access on object"
  | Seg.index i :: rest =>
      match api.getIndex obj i with
      | none => Except.error ("Cannot access index " ++ toString i)
      | some o => resolveSegments api o rest

/-- `resolve_path`: tokenize, require a whitelisted root attribute as the
first segment, then walk.  The tokenizer's `ValueError` propagates
(rendered with its position and remaining text, as in the source). -/
def resolve_path {H : Type} (api : HostAPI H) (path : String) : Except String H :=
  if path = "" then Except.error "Empty path"
  else
    match tokenize_path path with
    | Except.error (pos, rest) =>
        Except.error ("Invalid path syntax at position " ++ toString pos ++ ": " ++ rest)
    | Except.ok [] => Except.error "No valid segments in path"
    | Except.ok (seg0 :: rest) =>
      match seg0 with
      | Seg.attr root =>
          if root ∈ ALLOWED_ROOTS then
            resolveSegments api (api.dataAttr root) rest
          else
            Except.error ("Unknown root collection: " ++ root ++ allowedRootsSuffix)
      | _ => Except.error ("Path must start with a collection name, got: " ++ path)

/-! ## `protocol.py` — envelopes, responses, legacy wrapping

Wall-clock timestamps (`int(time.time() * 1000)`) and short uuids
(`str(uuid.uuid4())[:8]`) are nondeterministic inputs of the real code and
are passed in as explicit `ts` / `idStr` parameters.  Every call site in
the source leaves `source` at its default `Source.BLENDER_ADDON`
(`"blender_addon"`), so the parameter is fixed here. -/

def PROTOCOL_VERSION : Int := 1

/-- `create_envelope`: the versioned envelope dict, with `reply_to` added
only when the passed value is truthy (`if reply_to:`). -/
def create_envelope (ts : Int) (idStr : String) (msgType : String) (body : JDict)
    (replyTo : Option JVal) : JDict :=
  let envelope : JDict :=
    [("v", JVal.int PROTOCOL_VERSION), ("type", JVal.str msgType),
     ("ts", JVal.int ts), ("id", JVal.str idStr),
     ("source", JVal.str "blender_addon"), ("body", JVal.obj body)]
  match replyTo with
  | some r => if pyTruthy r then jset envelope "reply_to" r else envelope
  | none => envelope

/-- `create_response`: a command response envelope.  `action` is a JSON
value because the caller feeds it `request_data.get("action")`; `warnings`
uses `[]` for Python `None` (both falsy under `if warnings:`). -/
def create_response (ts : Int) (idStr : String) (requestId : JVal) (ok : Bool)
    (data : Option JVal) (errorCode : Option String) (errorMessage : Option String)
    (errorData : Option JVal) (warnings : List String) (action : JVal) : JDict :=
  let body : JDict := [("ok", JVal.bool ok)]
  let body := if pyTruthy action then jset body "action" action else body
  let body :=
    if ok then
      match data with
      | some d => jset body "data" d
      | none => body
    else
      let err : JDict :=
        [("code", JVal.str (if truthyOptStr errorCode then errorCode.getD "" else "INTERNAL_ERROR")),
         ("message", JVal.str (if truthyOptStr errorMessage then errorMessage.getD "" else "Unknown error"))]
      let err :=
        match errorData with
        | some ed => jset err "data" ed
        | none => err
      jset body "error" (JVal.obj err)
  let body :=
    if warnings.isEmpty then body
    else jset body "warnings" (JVal.arr (warnings.map JVal.str))
  create_envelope ts idStr "response" body (some requestId)

/-- `create_event`: an event envelope; a truthy `legacy_type` stores a
`{type: "event", event: legacy_type}` stub under `_legacy` in the body. -/
def create_event (ts : Int) (idStr : String) (eventType : String) (body : JDict)
    (legacyType : Option String) : JDict :=
  let body :=
    if truthyOptStr legacyType then
      jset body "_legacy"
        (JVal.obj [("type", JVal.str "event"), ("event", JVal.str (legacyType.getD ""))])
    else body
  create_envelope ts idStr eventType body none

/-- `event_scene_connected`: body of the upgrade-confirmation event. -/
def event_scene_connected (blenderVersion addonVersion filepath : String) : JDict :=
  [("blender_version", JVal.str blenderVersion),
   ("addon_version", JVal.str addonVersion),
   ("filepath", JVal.str filepath)]

/-- `event_node_active_changed`: body of the active-node event. -/
def event_node_active_changed (nodeId nodeTree : JVal) : JDict :=
  [("node_id", nodeId), ("node_tree", nodeTree)]

/-- `create_heartbeat`: a heartbeat envelope. -/
def create_heartbeat (ts : Int) (idStr : String) (activeObject mode filepath : JVal) : JDict :=
  create_envelope ts idStr "heartbeat"
    [("active_object", activeObject), ("mode", mode), ("filepath", filepath)] none

/-- `EVENT_TYPE_MAP`: old event names to hierarchical type strings. -/
def EVENT_TYPE_MAP : List (String × String) :=
  [("connected", "event.scene.connected"),
   ("load_post", "event.scene.file_loaded"),
   ("save_post", "event.scene.file_saved"),
   ("depsgraph_update", "event.depsgraph.updated"),
   ("frame_change", "event.timeline.frame_changed"),
   ("context", "event.node.active_changed")]

/-- First binding of `k` in a string map. -/
def lookupStr (m : List (String × String)) (k : String) : Option String :=
  match m with
  | [] => none
  | (k', v) :: rest => if k' = k then some v else lookupStr rest k

/-- `wrap_legacy_message`: wrap a legacy-format message in an envelope.
A non-string `type`/`event` value never equals the string literals the
source compares against, and misses every key of `EVENT_TYPE_MAP`, so it
falls through to the default branches (rendered with `pyStr`). -/
def wrap_legacy_message (ts : Int) (idStr : String) (legacyMsg : JDict) : JDict :=
  let msgType := (jget legacyMsg "type").getD (JVal.str "unknown")
  if msgType = JVal.str "event" then
    let oldEvent := (jget legacyMsg "event").getD (JVal.str "unknown")
    let newType :=
      match oldEvent with
      | JVal.str s => (lookupStr EVENT_TYPE_MAP s).getD ("event.legacy." ++ s)
      | v => "event.legacy." ++ pyStr v
    let body := legacyMsg.filter (fun kv => kv.1 ≠ "type" && kv.1 ≠ "event")
    let body := jset body "_legacy" (JVal.obj legacyMsg)
    create_envelope ts idStr newType body none
  else if msgType = JVal.str "response" then
    let requestId := (jget legacyMsg "id").getD (JVal.str "unknown")
    let hasError := hasKey legacyMsg "error"
    let body : JDict :=
      [("ok", JVal.bool (!hasError)),
       ("data", (jget legacyMsg "data").getD JVal.null),
       ("_legacy", JVal.obj legacyMsg)]
    let body :=
      if hasError then
        jset body "error"
          (JVal.obj [("code", JVal.str "INTERNAL_ERROR"),
                     ("message", (jget legacyMsg "error").getD JVal.null)])
      else body
    create_envelope ts idStr "response" body (some requestId)
  else if msgType = JVal.str "heartbeat" then
    create_heartbeat ts idStr
      ((jget legacyMsg "active_object").getD JVal.null)
      ((jget legacyMsg "mode").getD JVal.null)
      ((jget legacyMsg "filepath").getD (JVal.str "(unsaved)"))
  else if msgType = JVal.str "context" then
    create_event ts idStr "event.node.active_changed"
      (event_node_active_changed
        ((jget legacyMsg "node_id").getD (JVal.str "unknown"))
        ((jget legacyMsg "area").getD JVal.null))
      (some "context")
  else
    create_envelope ts idStr ("legacy." ++ pyStr msgType) legacyMsg none

/-! ## `connection.py` — session state, response rendering, queues -/

def SUPPORTED_PROTOCOL_VERSIONS : List Int := [1]

/-- `is_protocol_v1`: `_session_protocol_version >= 1`. -/
def is_protocol_v1 (sessionVersion : Int) : Bool := sessionVersion ≥ 1

/-- `_protocol_available`: `protocol.py` ships with the add-on, so
importing it succeeds in the modelled configuration. -/
def protocolAvailable : Bool := true

/-- Python `==` between a JSON value and an int (`requested_version in
SUPPORTED_PROTOCOL_VERSIONS`): ints compare numerically, and a bool is a
numeric `0`/`1`; no other JSON type equals an int. -/
def pyEqInt : JVal → Int → Bool
  | JVal.int m, n => m = n
  | JVal.bool b, n => (if b then (1 : Int) else 0) = n
  | _, _ => false

/-- Numeric reading of a JSON value that passed `pyEqInt` against some
supported version (only ints and bools can pass). -/
def pyToInt : JVal → Int
  | JVal.int m => m
  | JVal.bool b => if b then 1 else 0
  | _ => 0

/-- The `make_response` closure in `handle_request`: renders either a v1
envelope (via `create_response`) or a legacy-shaped response, depending on
the session version, with `force_legacy` available for the upgrade
exchange. -/
def make_response (ts : Int) (idStr : String) (sessionVersion : Int)
    (requestId : JVal) (action : JVal) (data : Option JVal) (error : Option String)
    (errorCode : Option String) (warnings : List String) (forceLegacy : Bool) : JDict :=
  let useV1 := is_protocol_v1 sessionVersion && protocolAvailable && !forceLegacy
  if useV1 then
    if truthyOptStr error then
      create_response ts idStr requestId false none
        (if truthyOptStr errorCode then errorCode else some "INTERNAL_ERROR")
        error none [] action
    else
      create_response ts idStr requestId true data none none none warnings action
  else
    let resp : JDict := [("type", JVal.str "response"), ("id", requestId), ("action", action)]
    if truthyOptStr error then
      let resp := jset resp "error" (JVal.str (error.getD ""))
      if truthyOptStr errorCode then jset resp "error_code" (JVal.str (errorCode.getD ""))
      else resp
    else
      let resp := jset resp "ok" (JVal.bool true)
      let resp := jset resp "data" ((data).getD JVal.null)
      if warnings.isEmpty then resp
      else jset resp "warnings" (JVal.arr (warnings.map JVal.str))

/-- The `protocol.upgrade` branch of `handle_request`.  Returns the new
session version, the outbound queue after the branch ran, and the value
the branch returns to `process_pending_requests` (`none` when the branch
queued its own response).  `ts1`/`id1` stamp the first message the branch
builds, `ts2`/`id2` the second.  The stored version is modelled
numerically (`pyToInt`); Python would store the raw value, which for the
supported set `[1]` differs only on the JSON literal `true`. -/
def protocol_upgrade (ts1 : Int) (id1 : String) (ts2 : Int) (id2 : String)
    (sessionVersion : Int) (queue : List JVal) (requestId action : JVal) (params : JDict)
    (blenderVersion addonVersion filepath : String) : Int × List JVal × Option JDict :=
  match jget params "version" with
  | none =>
      (sessionVersion, queue,
       some (make_response ts1 id1 sessionVersion requestId action none
         (some "Missing 'version' parameter") (some "INVALID_PARAMS") [] true))
  | some JVal.null =>
      (sessionVersion, queue,
       some (make_response ts1 id1 sessionVersion requestId action none
         (some "Missing 'version' parameter") (some "INVALID_PARAMS") [] true))
  | some rv =>
      if SUPPORTED_PROTOCOL_VERSIONS.any (fun n => pyEqInt rv n) then
        let newVersion := pyToInt rv
        let response :=
          make_response ts1 id1 sessionVersion requestId action
            (some (JVal.obj [("version", JVal.int newVersion)])) none none [] true
        let queue := queue ++ [JVal.obj response]
        if protocolAvailable && newVersion ≥ 1 then
          let connectedEvent :=
            create_event ts2 id2 "event.scene.connected"
              (event_scene_connected blenderVersion addonVersion filepath) none
          (newVersion, queue ++ [JVal.obj connectedEvent], none)
        else
          (newVersion, queue, none)
      else
        (sessionVersion, queue,
         some (make_response ts1 id1 sessionVersion requestId action
           (some (JVal.obj [("supported_versions",
             JVal.arr (SUPPORTED_PROTOCOL_VERSIONS.map JVal.int))]))
           (some ("Unsupported protocol version: " ++ pyStr rv))
           (some "UNSUPPORTED_VERSION") [] true))

/-- `send_to_blendmate`: enqueue a message, converting between envelope
and legacy shapes according to the session version. -/
def send_to_blendmate (ts : Int) (idStr : String) (sessionVersion : Int)
    (queue : List JVal) (data : JDict) : List JVal :=
  if is_protocol_v1 sessionVersion && protocolAvailable then
    if hasKey data "v" && hasKey data "body" then queue ++ [JVal.obj data]
    else queue ++ [JVal.obj (wrap_legacy_message ts idStr data)]
  else
    if hasKey data "v" && hasKey data "body" then
      let body :=
        match jget data "body" with
        | some (JVal.obj b) => b
        | _ => []
      match jget body "_legacy" with
      | some legacy => if pyTruthy legacy then queue ++ [legacy] else queue ++ [JVal.obj body]
      | none => queue ++ [JVal.obj body]
    else queue ++ [JVal.obj data]

/-- The body of an envelope, as a dict. -/
def bodyOf (e : JDict) : JDict :=
  match jget e "body" with
  | some (JVal.obj b) => b
  | _ => []

/-- A field is populated when it is present with a non-null value
(an absent key and an explicit JSON `null` both read back as Python
`None`). -/
def populatedB (d : JDict) (k : String) : Bool :=
  match jget d k with
  | some JVal.null => false
  | some _ => true
  | none => false

/-- At most one of `data` and `error` is populated. -/
def atMostOneB (d : JDict) : Bool :=
  !(populatedB d "data" && populatedB d "error")

/-- The unwrap direction of the legacy transition (the `_legacy`
extraction `send_to_blendmate` performs on an envelope in legacy mode):
the envelope's body's `_legacy` value, when present and truthy. -/
def unwrap_legacy (envelope : JDict) : Option JVal :=
  let body :=
    match jget envelope "body" with
    | some (JVal.obj b) => b
    | _ => []
  match jget body "_legacy" with
  | some legacy => if pyTruthy legacy then some legacy else none
  | none => none

/-! ## `connection.py` — transport callback and main-thread tick

The add-on has two execution contexts: the websocket transport thread
(running `on_ws_message`) and Blender's main thread (running the
`bpy.app.timers` callbacks, among them `process_pending_requests`).
`SysState` collects the state they share; `graph` is the host's live
object graph (only touchable from the main thread) and `handled` is the
trace of requests dispatched to `handle_request`, which abstracts as the
parameter `hr` below. -/

structure SysState (G : Type) where
  pendingRequests : List JDict
  messageQueue : List JVal
  graph : G
  handled : List JDict
  shouldRun : Bool

/-- `on_ws_message` (transport-thread receive callback): parse the wire
text (modelled as the already-decoded `Option JDict`, `none` = a
`json.JSONDecodeError`) and, when the message is a request, enqueue it on
`_pending_requests`; anything else is dropped. -/
def on_ws_message {G : Type} (s : SysState G) (parsed : Option JDict) : SysState G :=
  match parsed with
  | none => s
  | some data =>
      if jget data "type" = some (JVal.str "request") then
        { s with pendingRequests := s.pendingRequests ++ [data] }
      else s

/-- The drain loop of `process_pending_requests`: dequeue each request in
FIFO order, dispatch it through `hr` (the `handle_request` abstraction:
it may read and mutate the graph and the outbound queue, and may return a
response to send), and record the dispatch in `handled`. -/
def drainRequests {G : Type} (hr : JDict → G → List JVal → G × List JVal × Option JDict)
    (reqs : List JDict) (g : G) (queue : List JVal) (handled : List JDict) :
    G × List JVal × List JDict :=
  match reqs with
  | [] => (g, queue, handled)
  | req :: rest =>
      let (g', queue', respOpt) := hr req g queue
      let queue'' :=
        match respOpt with
        | some resp => queue' ++ [JVal.obj resp]
        | none => queue'
      drainRequests hr rest g' queue'' (handled ++ [req])

/-- `process_pending_requests` (main-thread timer callback): when the
run-flag is cleared it stops (returns `none`, unregistering the timer);
otherwise it drains the whole inbound queue and re-arms after 100 ms. -/
def process_pending_requests {G : Type}
    (hr : JDict → G → List JVal → G × List JVal × Option JDict)
    (s : SysState G) : SysState G × Option Nat :=
  if !s.shouldRun then (s, none)
  else
    let (g2, queue2, handled2) :=
      drainRequests hr s.pendingRequests s.graph s.messageQueue s.handled
    (⟨[], queue2, g2, handled2, s.shouldRun⟩, some 100)

/-! ## `throttle.py` — coalescing engine

Wall-clock times (`time.time()` seconds, `_throttle_interval = 0.1`) are
modelled as integer milliseconds with `THROTTLE_INTERVAL = 100`; Python
sets as duplicate-free lists (insertion order; only membership and union
matter).  The per-flush `uuid` short ids are passed in as functions of
the event type. -/

/-- First binding in a string-keyed map. -/
def smget {α : Type} (m : List (String × α)) (k : String) : Option α :=
  match m with
  | [] => none
  | (k', v) :: rest => if k' = k then some v else smget rest k

/-- Python dict assignment on a string-keyed map. -/
def smset {α : Type} (m : List (String × α)) (k : String) (v : α) : List (String × α) :=
  match m with
  | [] => [(k, v)]
  | (k', v') :: rest => if k' = k then (k, v) :: rest else (k', v') :: smset rest k v

/-- Python `del m[k]`. -/
def smdel {α : Type} (m : List (String × α)) (k : String) : List (String × α) :=
  m.filter (fun kv => kv.1 ≠ k)

/-- One `_pending_events` slot: `{"data": …, "timestamp": …}`. -/
structure Bucket where
  data : JDict
  timestamp : Int
deriving DecidableEq

/-- The four designated array fields the engine coalesces by set union. -/
def COALESCE_FIELDS : List String :=
  ["changed_object_ids", "geometry_changed_ids", "changed_objects", "geometry_changed"]

/-- The module-level throttle state (`_pending_events`, `_dirty_reasons`,
`_coalesced_data`, `_event_count`, `_new_type_map`). -/
structure ThrottleState where
  pendingEvents : List (String × Bucket)
  dirtyReasons : List (String × List String)
  coalescedData : List (String × List (String × List JVal))
  eventCount : List (String × Nat)
  newTypeMap : List (String × String)
deriving DecidableEq

/-- The empty throttle state (all five module dicts empty). -/
def emptyThrottle : ThrottleState := ⟨[], [], [], [], []⟩

/-- A fresh `_coalesced_data` entry: each designated field an empty set. -/
def emptyCoalesced : List (String × List JVal) :=
  COALESCE_FIELDS.map (fun f => (f, []))

/-- `set.update(xs)` on a set modelled as a duplicate-free list. -/
def setUpdate (s : List JVal) (xs : List JVal) : List JVal :=
  xs.foldl (fun acc x => if x ∈ acc then acc else acc ++ [x]) s

/-- The body of the array-coalescing loop in `throttle_event`: union the
payload's value for `field` into the bucket's set when it is an array. -/
def coalesceStep (eventData : JDict) (co : List (String × List JVal))
    (field : String) : List (String × List JVal) :=
  match jget eventData field with
  | some (JVal.arr xs) => smset co field (setUpdate ((smget co field).getD []) xs)
  | _ => co

/-- `throttle_event`: record one occurrence of `eventType` at time `now`
with payload `eventData` — remember the new-protocol type, create the
bucket scaffolding on first occurrence, union the designated array
fields, bump the occurrence count, store the latest payload and
timestamp, and add the dirty reason.  (`_register_flush_timer` arms the
host timer; the timer callback itself is `_flush_pending_events`.) -/
def throttle_event (now : Int) (st : ThrottleState) (eventType : String)
    (eventData : JDict) (reason : Option String) (newType : Option String) : ThrottleState :=
  let newTypeMap :=
    if truthyOptStr newType then smset st.newTypeMap eventType (newType.getD "")
    else st.newTypeMap
  let (coalescedData, eventCount) :=
    if (smget st.coalescedData eventType).isSome then (st.coalescedData, st.eventCount)
    else (smset st.coalescedData eventType emptyCoalesced, smset st.eventCount eventType 0)
  let coalesced := (smget coalescedData eventType).getD emptyCoalesced
  let coalesced := COALESCE_FIELDS.foldl (coalesceStep eventData) coalesced
  let coalescedData := smset coalescedData eventType coalesced
  let eventCount := smset eventCount eventType ((smget eventCount eventType).getD 0 + 1)
  let pendingEvents := smset st.pendingEvents eventType ⟨eventData, now⟩
  let dirtyReasons :=
    if truthyOptStr reason then
      let cur := (smget st.dirtyReasons eventType).getD []
      let r := reason.getD ""
      smset st.dirtyReasons eventType (if r ∈ cur then cur else cur ++ [r])
    else st.dirtyReasons
  ⟨pendingEvents, dirtyReasons, coalescedData, eventCount, newTypeMap⟩

def THROTTLE_INTERVAL : Int := 100

/-- The payload-construction block shared verbatim by
`_flush_pending_events` and `flush_immediate`: copy the latest payload,
substitute the non-empty coalesced sets for the designated array fields,
attach `batch_id`/`batch_size` when more than one occurrence was
coalesced, and attach the dirty reasons when any. -/
def flushFieldStep (coalesced : List (String × List JVal)) (ed : JDict)
    (field : String) : JDict :=
  match smget coalesced field with
  | some vs => if vs.isEmpty then ed else jset ed field (JVal.arr vs)
  | none => ed

def buildFlushData (st : ThrottleState) (eventType : String) (data : JDict)
    (batchId : String) : JDict :=
  let eventData := data
  let eventData :=
    match smget st.coalescedData eventType with
    | some coalesced => COALESCE_FIELDS.foldl (flushFieldStep coalesced) eventData
    | none => eventData
  let batchSize := (smget st.eventCount eventType).getD 1
  let eventData :=
    if batchSize > 1 then
      jset (jset eventData "batch_id" (JVal.str batchId)) "batch_size"
        (JVal.int (Int.ofNat batchSize))
    else eventData
  match smget st.dirtyReasons eventType with
  | some rs =>
      if rs.isEmpty then eventData
      else jset eventData "reasons" (JVal.arr (rs.map JVal.str))
  | none => eventData

/-- The envelope decision at the end of both flush paths: in v1 mode with
a known new-protocol type, wrap in an envelope; otherwise send the raw
payload. -/
def wrapFlushEvent (useV1 : Bool) (envTs : Int) (envId : String)
    (st : ThrottleState) (eventType : String) (eventData : JDict) : JVal :=
  match smget st.newTypeMap eventType with
  | some newType =>
      if useV1 && newType ≠ "" then JVal.obj (create_event envTs envId newType eventData none)
      else JVal.obj eventData
  | none => JVal.obj eventData

/-- The per-bucket loop of `_flush_pending_events` over the snapshot of
`_pending_events`: flush and delete the buckets whose age reached the
window, and take the minimum remaining wait of the rest. -/
def flushFold (useV1 : Bool) (now envTs : Int) (envId batchId : String → String)
    (items : List (String × Bucket)) (st : ThrottleState) :
    List JVal × ThrottleState × Option Int :=
  match items with
  | [] => ([], st, none)
  | (eventType, info) :: rest =>
      let timeSince := now - info.timestamp
      if timeSince ≥ THROTTLE_INTERVAL then
        let eventData := buildFlushData st eventType info.data (batchId eventType)
        let send := wrapFlushEvent useV1 envTs (envId eventType) st eventType eventData
        let st' : ThrottleState :=
          ⟨smdel st.pendingEvents eventType, smdel st.dirtyReasons eventType,
           smdel st.coalescedData eventType, smdel st.eventCount eventType,
           smdel st.newTypeMap eventType⟩
        let (sends, st'', nextFlush) := flushFold useV1 now envTs envId batchId rest st'
        (send :: sends, st'', nextFlush)
      else
        let timeUntil := THROTTLE_INTERVAL - timeSince
        let (sends, st', nextFlush) := flushFold useV1 now envTs envId batchId rest st
        (sends, st',
         some (match nextFlush with
               | none => timeUntil
               | some t => min timeUntil t))

/-- `_flush_pending_events` (timer callback): returns the messages handed
to `_send_function` in order, the throttle state after the flush, and the
re-arm delay (`none` stops the timer).  `useV1` is `_use_v1()`. -/
def _flush_pending_events (useV1 : Bool) (now envTs : Int)
    (envId batchId : String → String) (st : ThrottleState) :
    List JVal × ThrottleState × Option Int :=
  if st.pendingEvents.isEmpty then ([], st, none)
  else
    let (sends, st', nextFlush) := flushFold useV1 now envTs envId batchId st.pendingEvents st
    (sends, st',
     if !st'.pendingEvents.isEmpty then
       match nextFlush with
       | some t => some (max 10 t)
       | none => none
     else none)

/-- The value of an array field of a payload, as a list (`[]` when the
field is absent or not an array). -/
def jgetArr (d : JDict) (f : String) : List JVal :=
  match jget d f with
  | some (JVal.arr xs) => xs
  | _ => []

/-- The set union of one designated field over a sequence of payloads,
as `throttle_event` accumulates it (submission order, first-seen order of
elements). -/
def unionField (ps : List JDict) (f : String) : List JVal :=
  ps.foldl (fun acc q =>
    match jget q f with
    | some (JVal.arr xs) => setUpdate acc xs
    | _ => acc) []

/-- The accumulated `_coalesced_data` entry after the given payloads. -/
def accCoalesced (ps : List JDict) : List (String × List JVal) :=
  COALESCE_FIELDS.map (fun f => (f, unionField ps f))

/-- The whole throttle state after submitting `subs ++ [(t, p)]` of one
kind `k` into a fresh state (no reasons, no new-type mapping). -/
def accThrottle (k : String) (subs : List (Int × JDict)) (t : Int) (p : JDict) :
    ThrottleState :=
  ⟨[(k, ⟨p, t⟩)], [], [(k, accCoalesced (subs.map Prod.snd ++ [p]))],
   [(k, subs.length + 1)], []⟩

/-! ## `commands/handlers.py` — operator policy, batch set, and the
error-code classification of `connection.handle_request` -/

/-- `SAFE_CATEGORIES`: operator categories `operator.call` may invoke. -/
def SAFE_CATEGORIES : List String :=
  ["object", "mesh", "curve", "surface", "armature", "lattice",
   "transform", "view3d", "node", "material", "texture",
   "uv", "paint", "sculpt", "gpencil", "anim", "action",
   "marker", "pose", "constraint", "screen", "wm"]

/-- `BLOCKED_OPERATORS`: operators always rejected. -/
def BLOCKED_OPERATORS : List String :=
  ["wm.quit_blender", "wm.save_mainfile", "wm.open_mainfile",
   "wm.read_factory_settings", "wm.recover_auto_save",
   "wm.recover_last_session", "preferences.addon_install",
   "preferences.addon_remove", "script.python_file_run",
   "script.execute_preset", "text.run_script"]

/-- `{"success": False, "error": msg}`. -/
def cmdError (msg : String) : JDict :=
  [("success", JVal.bool false), ("error", JVal.str msg)]

/-- The tail of `cmd_operator_call` after the operator is invoked: a
normal return becomes `{"success": True, "data": {"result": str(result)}}`,
an exception is caught into an error result. -/
def opCallResult (invoked : Except String String) : JDict :=
  match invoked with
  | Except.ok r => [("success", JVal.bool true), ("data", JVal.obj [("result", JVal.str r)])]
  | Except.error e => cmdError e

/-- Python `s.split(".")` on character lists (keeps empty parts). -/
def splitDotAux : List Char → List (List Char)
  | [] => [[]]
  | '.' :: rest => [] :: splitDotAux rest
  | c :: rest =>
      match splitDotAux rest with
      | [] => [[c]]
      | p :: ps => (c :: p) :: ps

/-- Python `target.split(".")`. -/
def pySplitDot (s : String) : List String :=
  (splitDotAux s.toList).map (fun l => String.mk l)

/-- `cmd_operator_call`: parse `category.name`, apply the blacklist then
the category whitelist, check the operator exists on `bpy.ops` (abstracted
as `hasCat`/`hasOp`), then invoke it (`invoke`, with exceptions as
`Except.error`).  The `undo_push` host side effect is outside the model. -/
def cmd_operator_call (hasCat : String → Bool) (hasOp : String → String → Bool)
    (invoke : String → JDict → Except String String)
    (target : String) (params : JDict) : JDict :=
  match pySplitDot target with
  | [category, name] =>
      let fullName := category ++ "." ++ name
      if fullName ∈ BLOCKED_OPERATORS then
        cmdError ("Operator '" ++ fullName ++ "' is blocked for security")
      else if category ∉ SAFE_CATEGORIES then
        cmdError ("Operator category '" ++ category ++ "' is not allowed")
      else if !hasCat category then
        cmdError ("Unknown operator category: " ++ category)
      else if !hasOp category name then
        cmdError ("Unknown operator: " ++ fullName)
      else
        opCallResult (invoke fullName params)
  | _ => cmdError ("Invalid operator path: " ++ target)

/-- Python `needle in hay` on strings, over character lists. -/
def isInfixB (needle : List Char) : List Char → Bool
  | [] => needle.isEmpty
  | c :: rest => needle.isPrefixOf (c :: rest) || isInfixB needle rest

/-- The error-string-to-error-code mapping `handle_request` applies to a
failed command result (substring tests on the lowercased message). -/
def classify_error_code (errorMsg : String) : String :=
  let m := errorMsg.toList.map Char.toLower
  if isInfixB "not found".toList m then "NOT_FOUND"
  else if isInfixB "invalid".toList m || isInfixB "param".toList m then "INVALID_PARAMS"
  else if isInfixB "context".toList m || isInfixB "mode".toList m then "INVALID_CONTEXT"
  else if isInfixB "operator".toList m then "OPERATOR_FAILED"
  else "INTERNAL_ERROR"

/-- The item loop of `cmd_property_set_batch`: items missing `path` or
`value` (or carrying JSON `null`, Python `None`, for them) are skipped;
each remaining item is applied through `setp` (the `set_property`
abstraction over host state `St`); an exception is collected as
`f"{path}: {e}"` and the loop continues.  Returns final state, success
count, and the collected error strings in order. -/
def setBatchLoop {St : Type} (setp : St → String → JVal → JVal → Except String St)
    (s : St) (target : String) (props : List JVal) : St × Nat × List String :=
  match props with
  | [] => (s, 0, [])
  | p :: rest =>
      let prop : JDict :=
        match p with
        | JVal.obj d => d
        | _ => []
      match jget prop "path", jget prop "value" with
      | some path, some value =>
          if path ≠ JVal.null && value ≠ JVal.null then
            match setp s target path value with
            | Except.ok s2 =>
                let (s3, count, errs) := setBatchLoop setp s2 target rest
                (s3, count + 1, errs)
            | Except.error e =>
                let (s3, count, errs) := setBatchLoop setp s target rest
                (s3, count, (pyStr path ++ ": " ++ e) :: errs)
          else setBatchLoop setp s target rest
      | _, _ => setBatchLoop setp s target rest

/-- `cmd_property_set_batch`: one undo push (host side effect, outside
the model), then apply every well-formed item, collecting per-item errors
as warnings instead of aborting; always `success: True` with the count of
applied items once the item list is non-empty. -/
def cmd_property_set_batch {St : Type}
    (setp : St → String → JVal → JVal → Except String St)
    (s : St) (target : String) (params : JDict) : St × JDict :=
  let properties :=
    match jget params "properties" with
    | some (JVal.arr xs) => xs
    | _ => []
  if properties.isEmpty then
    (s, cmdError "No properties to set")
  else
    let (s', count, errors) := setBatchLoop setp s target properties
    if errors.isEmpty then
      (s', [("success", JVal.bool true), ("count", JVal.int (Int.ofNat count))])
    else
      (s', [("success", JVal.bool true), ("count", JVal.int (Int.ofNat count)),
            ("warnings", JVal.arr (errors.map JVal.str))])

end Blendmate

/-!
## Theorems

Shared helper lemmas first, then one theorem per verified claim (with a
closed witness instance for each theorem that carries hypotheses, and
closed counterexamples where the claimed property fails on the code).
-/

namespace Blendmate

/-! ## Helper lemmas -/

theorem jget_jset_self (d : JDict) (k : String) (v : JVal) :
    jget (jset d k v) k = some v := by
  induction d with
  | nil => simp [jset, jget]
  | cons kv rest ih =>
      by_cases h : kv.1 = k
      · simp [jset, jget, h]
      · simp [jset, jget, h, ih]

theorem jget_jset_ne (d : JDict) (k k' : String) (v : JVal) (h : k' ≠ k) :
    jget (jset d k v) k' = jget d k' := by
  induction d with
  | nil => simp [jset, jget, Ne.symm h]
  | cons kv rest ih =>
      by_cases h2 : kv.1 = k
      · simp [jset, jget, h2, Ne.symm h]
      · by_cases h3 : kv.1 = k'
        · simp [jset, jget, h2, h3, h]
        · simp [jset, jget, h2, h3, ih]

/-- C3: a `protocol.upgrade` request for unsupported version 2 leaves the
session version at 0 and returns a legacy-framed `UNSUPPORTED_VERSION`
error — but the response contains no `data` field and no
`supported_versions` field: the supported set passed to `make_response`
at the call site is discarded by its legacy error branch, so the
"supported set listed" part of the claim does not hold on the code. -/
theorem upgrade_unsupported_response_omits_supported_set :
    protocol_upgrade 0 "a" 1 "b" 0 [] (JVal.str "r1") (JVal.str "protocol.upgrade")
        [("version", JVal.int 2)] "4.5.0" "1.0.0" "f.blend" =
      (0, [],
       some [("type", JVal.str "response"), ("id", JVal.str "r1"),
             ("action", JVal.str "protocol.upgrade"),
             ("error", JVal.str "Unsupported protocol version: 2"),
             ("error_code", JVal.str "UNSUPPORTED_VERSION")]) := by
  rfl

/-- C2: for every successful `protocol.upgrade`, the branch enqueues
exactly two messages onto the outbound FIFO — first the legacy-framed
acknowledgment (`type = "response"`, no envelope `v` key), then the
envelope-framed `event.scene.connected` confirmation (`v = 1`), so the
acknowledgment is observed strictly before the confirmation. -/
theorem upgrade_ack_precedes_envelope_confirmation
    (ts1 : Int) (id1 : String) (ts2 : Int) (id2 : String) (sessionVersion : Int)
    (queue : List JVal) (requestId action : JVal) (params : JDict)
    (bv av fp : String)
    (hver : jget params "version" = some (JVal.int 1)) :
    protocol_upgrade ts1 id1 ts2 id2 sessionVersion queue requestId action params bv av fp =
      (1,
       queue ++
         [JVal.obj (make_response ts1 id1 sessionVersion requestId action
            (some (JVal.obj [("version", JVal.int 1)])) none none [] true),
          JVal.obj (create_event ts2 id2 "event.scene.connected"
            (event_scene_connected bv av fp) none)],
       none) ∧
    jget (make_response ts1 id1 sessionVersion requestId action
        (some (JVal.obj [("version", JVal.int 1)])) none none [] true) "type" =
      some (JVal.str "response") ∧
    jget (make_response ts1 id1 sessionVersion requestId action
        (some (JVal.obj [("version", JVal.int 1)])) none none [] true) "v" = none ∧
    jget (create_event ts2 id2 "event.scene.connected"
        (event_scene_connected bv av fp) none) "v" = some (JVal.int 1) ∧
    jget (create_event ts2 id2 "event.scene.connected"
        (event_scene_connected bv av fp) none) "type" =
      some (JVal.str "event.scene.connected") := by
  have hU : (is_protocol_v1 sessionVersion && protocolAvailable && !true) = false := by
    simp
  refine ⟨?_, ?_, ?_, ?_, ?_⟩
  · simp only [protocol_upgrade, hver]
    norm_num [SUPPORTED_PROTOCOL_VERSIONS, pyEqInt, pyToInt, protocolAvailable,
      List.any_cons, List.any_nil]
  · simp only [make_response, hU, Bool.false_eq_true, if_false, truthyOptStr]
    rfl
  · simp only [make_response, hU, Bool.false_eq_true, if_false, truthyOptStr]
    rfl
  · rfl
  · rfl

/-- Witness for C2 at a concrete upgrade request. -/
theorem upgrade_ack_precedes_envelope_confirmation_witness :
    jget [("version", JVal.int 1)] "version" = some (JVal.int 1) ∧
    (protocol_upgrade 10 "aa" 11 "bb" 0 [] (JVal.str "r1") (JVal.str "protocol.upgrade")
        [("version", JVal.int 1)] "4.5.0" "1.0.0" "f.blend" =
      (1,
       [] ++
         [JVal.obj (make_response 10 "aa" 0 (JVal.str "r1") (JVal.str "protocol.upgrade")
            (some (JVal.obj [("version", JVal.int 1)])) none none [] true),
          JVal.obj (create_event 11 "bb" "event.scene.connected"
            (event_scene_connected "4.5.0" "1.0.0" "f.blend") none)],
       none) ∧
    jget (make_response 10 "aa" 0 (JVal.str "r1") (JVal.str "protocol.upgrade")
        (some (JVal.obj [("version", JVal.int 1)])) none none [] true) "type" =
      some (JVal.str "response") ∧
    jget (make_response 10 "aa" 0 (JVal.str "r1") (JVal.str "protocol.upgrade")
        (some (JVal.obj [("version", JVal.int 1)])) none none [] true) "v" = none ∧
    jget (create_event 11 "bb" "event.scene.connected"
        (event_scene_connected "4.5.0" "1.0.0" "f.blend") none) "v" = some (JVal.int 1) ∧
    jget (create_event 11 "bb" "event.scene.connected"
        (event_scene_connected "4.5.0" "1.0.0" "f.blend") none) "type" =
      some (JVal.str "event.scene.connected")) :=
  ⟨rfl, upgrade_ack_precedes_envelope_confirmation 10 "aa" 11 "bb" 0 []
    (JVal.str "r1") (JVal.str "protocol.upgrade") [("version", JVal.int 1)]
    "4.5.0" "1.0.0" "f.blend" rfl⟩

/-- C10 counterexample: wrapping a concrete legacy heartbeat message
yields an envelope whose body carries no `_legacy` key at all, so
extracting `_legacy` cannot recover the original message — the
round-trip identity fails for the `heartbeat` discriminator. -/
theorem wrap_legacy_heartbeat_not_roundtrip :
    ¬ (unwrap_legacy (wrap_legacy_message 0 "a"
        [("type", JVal.str "heartbeat"), ("active_object", JVal.str "Cube"),
         ("mode", JVal.str "OBJECT"), ("filepath", JVal.str "f.blend")]) =
      some (JVal.obj
        [("type", JVal.str "heartbeat"), ("active_object", JVal.str "Cube"),
         ("mode", JVal.str "OBJECT"), ("filepath", JVal.str "f.blend")])) := by
  decide

/-- Unwrapping any envelope looks only at the body's `_legacy` key. -/
theorem unwrap_create_envelope (ts : Int) (idStr msgType : String) (body : JDict)
    (replyTo : Option JVal) :
    unwrap_legacy (create_envelope ts idStr msgType body replyTo) =
      (match jget body "_legacy" with
       | some legacy => if pyTruthy legacy then some legacy else none
       | none => none) := by
  have hbody : ∀ e : JDict,
      jget ([("v", JVal.int PROTOCOL_VERSION), ("type", JVal.str msgType),
        ("ts", JVal.int ts), ("id", JVal.str idStr),
        ("source", JVal.str "blender_addon"), ("body", JVal.obj body)]) "body" =
        some (JVal.obj body) := by
    intro e
    simp [jget]
  cases replyTo with
  | none =>
      simp only [create_envelope, unwrap_legacy]
      simp [jget]
  | some r =>
      by_cases hr : pyTruthy r
      · simp only [create_envelope, unwrap_legacy, hr, if_true]
        rw [jget_jset_ne _ _ _ _ (by decide)]
        simp [jget]
      · simp only [create_envelope, unwrap_legacy, hr, if_false]
        simp [jget]

/-- C10 (amended): the wrap/unwrap round trip through the `_legacy` key
is lossless exactly for the `event` and `response` discriminators; the
`heartbeat` and `context` wrappers rebuild the body from scratch and do
not carry the original message. -/
theorem wrap_unwrap_roundtrip_event_response (ts : Int) (idStr : String) (m : JDict)
    (h : jget m "type" = some (JVal.str "event") ∨ jget m "type" = some (JVal.str "response")) :
    unwrap_legacy (wrap_legacy_message ts idStr m) = some (JVal.obj m) := by
  have hne : m.isEmpty = false := by
    rcases h with h | h <;> (cases m with
      | nil => simp [jget] at h
      | cons kv rest => simp [List.isEmpty])
  have htruthy : pyTruthy (JVal.obj m) = true := by
    simp [pyTruthy, hne]
  rcases h with h | h
  · have hm : (jget m "type").getD (JVal.str "unknown") = JVal.str "event" := by
      rw [h]
      rfl
    simp only [wrap_legacy_message, hm, eq_self_iff_true, if_true]
    rw [unwrap_create_envelope]
    simp [jget_jset_self, htruthy]
  · have hm : (jget m "type").getD (JVal.str "unknown") = JVal.str "response" := by
      rw [h]
      rfl
    have hF1 : (JVal.str "response" = JVal.str "event") = False := by simp
    simp only [wrap_legacy_message, hm, hF1, if_false, eq_self_iff_true, if_true]
    rw [unwrap_create_envelope]
    by_cases he : hasKey m "error"
    · simp only [he, if_true]
      rw [jget_jset_ne _ _ _ _ (by decide)]
      simp [jget, htruthy]
    · simp only [he, Bool.false_eq_true, if_false]
      simp [jget, htruthy]

/-- Witness for C10's amended theorem at a concrete event message. -/
theorem wrap_unwrap_roundtrip_event_response_witness :
    (jget [("type", JVal.str "event"), ("event", JVal.str "connected")] "type" =
        some (JVal.str "event") ∨
     jget [("type", JVal.str "event"), ("event", JVal.str "connected")] "type" =
        some (JVal.str "response")) ∧
    unwrap_legacy (wrap_legacy_message 0 "a"
        [("type", JVal.str "event"), ("event", JVal.str "connected")]) =
      some (JVal.obj [("type", JVal.str "event"), ("event", JVal.str "connected")]) :=
  ⟨Or.inl rfl,
   wrap_unwrap_roundtrip_event_response 0 "a"
     [("type", JVal.str "event"), ("event", JVal.str "connected")] (Or.inl rfl)⟩

/-- C6: for every path whose first segment names a root outside
`ALLOWED_ROOTS`, `resolve_path` fails with the unknown-root error, and
the result is the same fixed error for every host API instance — no
attribute access on the host data root can have influenced it. -/
theorem resolve_unknown_root_fails_without_host_access {H : Type} (api : HostAPI H)
    (path : String) (root : String) (rest : List Seg)
    (htok : tokenize_path path = Except.ok (Seg.attr root :: rest))
    (hroot : root ∉ ALLOWED_ROOTS) :
    resolve_path api path =
      Except.error ("Unknown root collection: " ++ root ++ allowedRootsSuffix) := by
  have hpath : path ≠ "" := by
    intro he
    rw [he] at htok
    simp [tokenize_path, tokAux] at htok
  simp only [resolve_path, if_neg hpath, htok]
  rw [if_neg hroot]

/-- Witness for C6 on the path `"foo"` over a trivial host. -/
theorem resolve_unknown_root_fails_without_host_access_witness :
    tokenize_path "foo" = Except.ok [Seg.attr "foo"] ∧
    "foo" ∉ ALLOWED_ROOTS ∧
    resolve_path
        (HostAPI.mk (fun _ _ => none) (fun _ => false) (fun _ _ => none)
          (fun _ _ => none) (fun _ => ()) : HostAPI Unit) "foo" =
      Except.error ("Unknown root collection: " ++ "foo" ++ allowedRootsSuffix) :=
  ⟨rfl, by decide,
   resolve_unknown_root_fails_without_host_access _ "foo" "foo" [] rfl (by decide)⟩

/-- C5 counterexample: the blacklisted operator `wm.quit_blender` is
rejected, but `handle_request` classifies the rejection message
("… is blocked for security", which contains the substring "operator")
as `OPERATOR_FAILED`, not as `PERMISSION_DENIED`. -/
theorem operator_blacklist_maps_to_operator_failed :
    cmd_operator_call (fun _ => true) (fun _ _ => true) (fun _ _ => Except.ok "FINISHED")
        "wm.quit_blender" [] =
      cmdError "Operator 'wm.quit_blender' is blocked for security" ∧
    classify_error_code "Operator 'wm.quit_blender' is blocked for security" =
      "OPERATOR_FAILED" ∧
    ("OPERATOR_FAILED" : String) ≠ "PERMISSION_DENIED" := by
  refine ⟨rfl, rfl, by decide⟩

/-- C5 (amended): a blacklisted `category.name` is rejected regardless
of its category with the "blocked for security" error, which
`handle_request` classifies as `OPERATOR_FAILED`; a non-blacklisted name
in a non-whitelisted category is rejected; a non-blacklisted name in a
whitelisted category whose operator exists proceeds to invoke it. -/
theorem operator_call_policy (hasCat : String → Bool) (hasOp : String → String → Bool)
    (invoke : String → JDict → Except String String)
    (category name target : String) (params : JDict)
    (hsplit : pySplitDot target = [category, name]) :
    (category ++ "." ++ name ∈ BLOCKED_OPERATORS →
      cmd_operator_call hasCat hasOp invoke target params =
        cmdError ("Operator '" ++ (category ++ "." ++ name) ++ "' is blocked for security") ∧
      classify_error_code
          ("Operator '" ++ (category ++ "." ++ name) ++ "' is blocked for security") =
        "OPERATOR_FAILED") ∧
    (category ++ "." ++ name ∉ BLOCKED_OPERATORS → category ∉ SAFE_CATEGORIES →
      cmd_operator_call hasCat hasOp invoke target params =
        cmdError ("Operator category '" ++ category ++ "' is not allowed")) ∧
    (category ++ "." ++ name ∉ BLOCKED_OPERATORS → category ∈ SAFE_CATEGORIES →
      hasCat category = true → hasOp category name = true →
      cmd_operator_call hasCat hasOp invoke target params =
        opCallResult (invoke (category ++ "." ++ name) params)) := by
  refine ⟨fun hb => ⟨?_, ?_⟩, fun hb hc => ?_, fun hb hc h1 h2 => ?_⟩
  · simp only [cmd_operator_call, hsplit, if_pos hb]
  · simp only [BLOCKED_OPERATORS, List.mem_cons, List.mem_singleton,
      List.mem_nil_iff, or_false] at hb
    rcases hb with h | h | h | h | h | h | h | h | h | h | h <;> (rw [h]; rfl)
  · simp only [cmd_operator_call, hsplit, if_neg hb]
    rw [if_pos hc]
  · simp only [cmd_operator_call, hsplit, if_neg hb, h1, h2]
    rw [if_neg (fun hcc => hcc hc)]
    rfl

/-- Witness for C5's amended theorem: a blacklisted and a permitted
operator call. -/
theorem operator_call_policy_witness :
    (pySplitDot "wm.quit_blender" = ["wm", "quit_blender"] ∧
     "wm" ++ "." ++ "quit_blender" ∈ BLOCKED_OPERATORS ∧
     cmd_operator_call (fun _ => true) (fun _ _ => true) (fun _ _ => Except.ok "FINISHED")
        "wm.quit_blender" [] =
       cmdError ("Operator '" ++ ("wm" ++ "." ++ "quit_blender") ++ "' is blocked for security")) ∧
    (pySplitDot "object.shade_smooth" = ["object", "shade_smooth"] ∧
     "object" ++ "." ++ "shade_smooth" ∉ BLOCKED_OPERATORS ∧
     "object" ∈ SAFE_CATEGORIES ∧
     cmd_operator_call (fun _ => true) (fun _ _ => true) (fun _ _ => Except.ok "FINISHED")
        "object.shade_smooth" [] =
       opCallResult (Except.ok "FINISHED")) := by
  refine ⟨⟨by decide, by decide, ?_⟩, ⟨by decide, by decide, by decide, ?_⟩⟩
  · exact ((operator_call_policy (fun _ => true) (fun _ _ => true)
      (fun _ _ => Except.ok "FINISHED") "wm" "quit_blender" "wm.quit_blender" []
      rfl).1 (by decide)).1
  · exact (operator_call_policy (fun _ => true) (fun _ _ => true)
      (fun _ _ => Except.ok "FINISHED") "object" "shade_smooth" "object.shade_smooth" []
      rfl).2.2 (by decide) (by decide) rfl rfl

/-- Helper: the drain loop dispatches exactly the queued requests, in
FIFO order, appending them to the dispatch trace. -/
theorem drainRequests_handled {G : Type}
    (hr : JDict → G → List JVal → G × List JVal × Option JDict) :
    ∀ (reqs : List JDict) (g : G) (q : List JVal) (hd : List JDict),
      (drainRequests hr reqs g q hd).2.2 = hd ++ reqs := by
  intro reqs
  induction reqs with
  | nil => intro g q hd; simp [drainRequests]
  | cons req rest ih =>
      intro g q hd
      simp only [drainRequests]
      cases hhr : hr req g q with
      | mk g2 rest2 =>
        cases rest2 with
        | mk q2 resp =>
          cases resp <;> simp [ih]

/-- C1: the transport-thread receive callback `on_ws_message` only ever
enqueues the parsed request onto the inbound queue — it leaves the graph,
the outbound queue and the dispatch trace untouched — while the
host-driven periodic tick `process_pending_requests` is the sole place
where queued requests are dispatched through `handle_request`, draining
the inbound queue in FIFO order. -/
theorem graph_mutation_only_in_tick {G : Type}
    (hr : JDict → G → List JVal → G × List JVal × Option JDict)
    (s : SysState G) (parsed : Option JDict) :
    (on_ws_message s parsed).graph = s.graph ∧
    (on_ws_message s parsed).handled = s.handled ∧
    (on_ws_message s parsed).messageQueue = s.messageQueue ∧
    ((on_ws_message s parsed).pendingRequests = s.pendingRequests ∨
      ∃ d, parsed = some d ∧
        (on_ws_message s parsed).pendingRequests = s.pendingRequests ++ [d]) ∧
    (s.shouldRun = true →
      (process_pending_requests hr s).1.pendingRequests = [] ∧
      (process_pending_requests hr s).1.handled = s.handled ++ s.pendingRequests) := by
  refine ⟨?_, ?_, ?_, ?_, ?_⟩
  case refine_5 =>
    intro hrun
    simp only [process_pending_requests, hrun, Bool.not_true, Bool.false_eq_true,
      if_false]
    constructor
    · trivial
    · exact drainRequests_handled hr s.pendingRequests s.graph s.messageQueue s.handled
  all_goals (
    cases parsed with
    | none => simp [on_ws_message]
    | some d =>
        by_cases ht : jget d "type" = some (JVal.str "request") <;>
          simp [on_ws_message, ht])

/-- Witness for C1 on a one-request system state. -/
theorem graph_mutation_only_in_tick_witness :
    ((⟨[[("type", JVal.str "request")]], [], 0, [], true⟩ :
        SysState Nat).shouldRun = true) ∧
    ((process_pending_requests (fun _ g q => (g + 1, q, none))
        (⟨[[("type", JVal.str "request")]], [], 0, [], true⟩ : SysState Nat)).1.pendingRequests
        = [] ∧
     (process_pending_requests (fun _ g q => (g + 1, q, none))
        (⟨[[("type", JVal.str "request")]], [], 0, [], true⟩ : SysState Nat)).1.handled
        = [] ++ [[("type", JVal.str "request")]]) :=
  ⟨rfl,
   (graph_mutation_only_in_tick (fun _ g q => (g + 1, q, none))
     ⟨[[("type", JVal.str "request")]], [], 0, [], true⟩ none).2.2.2.2 rfl⟩

/-- Helper: the body of an envelope is the body it was built from. -/
theorem bodyOf_create_envelope (ts : Int) (idStr msgType : String) (body : JDict)
    (replyTo : Option JVal) :
    bodyOf (create_envelope ts idStr msgType body replyTo) = body := by
  cases replyTo with
  | none => simp [create_envelope, bodyOf, jget]
  | some r =>
      by_cases hr : pyTruthy r
      · simp only [create_envelope, bodyOf, hr, if_true]
        rw [jget_jset_ne _ _ _ _ (by decide)]
        simp [jget]
      · simp only [create_envelope, bodyOf, hr, if_false]
        simp [jget]

/-- Helper: `create_response` never populates both `data` and `error`. -/
theorem create_response_exclusive (ts : Int) (idStr : String) (requestId : JVal)
    (ok : Bool) (data : Option JVal) (errorCode errorMessage : Option String)
    (errorData : Option JVal) (warnings : List String) (action : JVal) :
    atMostOneB (bodyOf (create_response ts idStr requestId ok data errorCode
      errorMessage errorData warnings action)) = true := by
  simp only [create_response, bodyOf_create_envelope]
  split_ifs <;>
    cases data <;>
      cases errorData <;>
        simp [atMostOneB, populatedB, jget_jset_ne, jget_jset_self, jget]

/-- Helper: an envelope's top level has no `data`/`error` fields. -/
theorem atMostOneB_create_envelope (ts : Int) (idStr msgType : String) (body : JDict)
    (replyTo : Option JVal) :
    atMostOneB (create_envelope ts idStr msgType body replyTo) = true := by
  cases replyTo with
  | none => simp [create_envelope, atMostOneB, populatedB, jget]
  | some r =>
      by_cases hr : pyTruthy r
      · simp only [create_envelope, atMostOneB, populatedB, hr, if_true]
        rw [jget_jset_ne _ _ _ _ (by decide), jget_jset_ne _ _ _ _ (by decide)]
        simp [jget]
      · simp only [create_envelope, atMostOneB, populatedB, hr, if_false]
        simp [jget]

/-- Helper: an envelope's top level has no `error` key at all. -/
theorem hasKey_error_create_envelope (ts : Int) (idStr msgType : String) (body : JDict)
    (replyTo : Option JVal) :
    hasKey (create_envelope ts idStr msgType body replyTo) "error" = false := by
  cases replyTo with
  | none => simp [create_envelope, hasKey, jget]
  | some r =>
      by_cases hr : pyTruthy r
      · simp only [create_envelope, hasKey, hr, if_true]
        rw [jget_jset_ne _ _ _ _ (by decide)]
        simp [jget]
      · simp only [create_envelope, hasKey, hr, if_false]
        simp [jget]

/-- Helper: `create_response` top level is an envelope. -/
theorem atMostOneB_create_response_top (ts : Int) (idStr : String) (requestId : JVal)
    (ok : Bool) (data : Option JVal) (errorCode errorMessage : Option String)
    (errorData : Option JVal) (warnings : List String) (action : JVal) :
    atMostOneB (create_response ts idStr requestId ok data errorCode errorMessage
      errorData warnings action) = true := by
  simp only [create_response]
  exact atMostOneB_create_envelope _ _ _ _ _

/-- Helper: `create_response` top level has no `error` key. -/
theorem hasKey_error_create_response_top (ts : Int) (idStr : String) (requestId : JVal)
    (ok : Bool) (data : Option JVal) (errorCode errorMessage : Option String)
    (errorData : Option JVal) (warnings : List String) (action : JVal) :
    hasKey (create_response ts idStr requestId ok data errorCode errorMessage
      errorData warnings action) "error" = false := by
  simp only [create_response]
  exact hasKey_error_create_envelope _ _ _ _ _

/-- Helper: `make_response` outputs are exclusive and, when legacy-framed
with an error, carry no populated `data`. -/
theorem make_response_exclusive (ts : Int) (idStr : String) (sessionVersion : Int)
    (requestId action : JVal) (data : Option JVal) (error : Option String)
    (errorCode : Option String) (warnings : List String) (forceLegacy : Bool) :
    atMostOneB (make_response ts idStr sessionVersion requestId action data error
      errorCode warnings forceLegacy) = true ∧
    atMostOneB (bodyOf (make_response ts idStr sessionVersion requestId action data error
      errorCode warnings forceLegacy)) = true ∧
    ¬(hasKey (make_response ts idStr sessionVersion requestId action data error
        errorCode warnings forceLegacy) "error" = true ∧
      populatedB (make_response ts idStr sessionVersion requestId action data error
        errorCode warnings forceLegacy) "data" = true) := by
  simp only [make_response]
  split_ifs with h1 h2 h3 h4 h5 <;>
    first
    | exact ⟨atMostOneB_create_response_top _ _ _ _ _ _ _ _ _ _,
        create_response_exclusive _ _ _ _ _ _ _ _ _ _,
        by simp [hasKey_error_create_response_top]⟩
    | (cases data <;> (refine ⟨?_, ?_, ?_⟩ <;>
        simp [atMostOneB, populatedB, bodyOf, hasKey, jget_jset_ne, jget_jset_self, jget]))

/-- Helper: wrapping a legacy response that does not populate `data`
alongside an `error` key yields an exclusive envelope body. -/
theorem wrap_legacy_response_exclusive (ts : Int) (idStr : String) (m : JDict)
    (h : jget m "type" = some (JVal.str "response"))
    (hwf : ¬(hasKey m "error" = true ∧ populatedB m "data" = true)) :
    atMostOneB (bodyOf (wrap_legacy_message ts idStr m)) = true := by
  have hm : (jget m "type").getD (JVal.str "unknown") = JVal.str "response" := by
    rw [h]
    rfl
  have hF1 : (JVal.str "response" = JVal.str "event") = False := by simp
  simp only [wrap_legacy_message, hm, hF1, if_false, eq_self_iff_true, if_true]
  rw [bodyOf_create_envelope]
  by_cases he : hasKey m "error"
  · have hd : populatedB m "data" = false := by
      by_contra hcon
      exact hwf ⟨he, by simpa using hcon⟩
    have hdval : (jget m "data").getD JVal.null = JVal.null := by
      revert hd
      simp only [populatedB]
      cases hjd : jget m "data" with
      | none => simp
      | some v => cases v <;> simp
    simp only [he, if_true, hdval]
    simp [atMostOneB, populatedB, jset, jget]
  · simp only [he, Bool.false_eq_true, if_false]
    simp [atMostOneB, populatedB, jget]

/-- Helper: `cmd_operator_call` results are exclusive. -/
theorem cmd_operator_call_exclusive (hasCat : String → Bool)
    (hasOp : String → String → Bool) (invoke : String → JDict → Except String String)
    (target : String) (params : JDict) :
    atMostOneB (cmd_operator_call hasCat hasOp invoke target params) = true := by
  have herr : ∀ msg, atMostOneB (cmdError msg) = true := by
    intro msg
    simp [atMostOneB, populatedB, cmdError, jget]
  have hok : ∀ r, atMostOneB (opCallResult r) = true := by
    intro r
    cases r with
    | ok v => simp [atMostOneB, populatedB, opCallResult, jget]
    | error e => exact herr e
  simp only [cmd_operator_call]
  split
  · split_ifs <;> first | apply herr | apply hok
  · apply herr

/-- Helper: `cmd_property_set_batch` results are exclusive. -/
theorem cmd_property_set_batch_exclusive (St : Type)
    (setp : St → String → JVal → JVal → Except String St) (s : St)
    (target : String) (params : JDict) :
    atMostOneB (cmd_property_set_batch setp s target params).2 = true := by
  simp only [cmd_property_set_batch]
  split_ifs with h1 h2
  · simp [atMostOneB, populatedB, cmdError, jget]
  · simp [atMostOneB, populatedB, jget]
  · simp [atMostOneB, populatedB, jget]

/-- C9: every rendered response populates at most one of `data` and
`error` — `create_response` bodies and envelope tops, `make_response` in
both framings, wrapped legacy responses (for inputs that themselves obey
the invariant, which `make_response` legacy outputs do), and the command
results of `cmd_operator_call` and `cmd_property_set_batch`. -/
theorem responses_never_populate_data_and_error :
    (∀ (ts : Int) (idStr : String) (requestId : JVal) (ok : Bool) (data : Option JVal)
        (errorCode errorMessage : Option String) (errorData : Option JVal)
        (warnings : List String) (action : JVal),
      atMostOneB (bodyOf (create_response ts idStr requestId ok data errorCode
        errorMessage errorData warnings action)) = true ∧
      atMostOneB (create_response ts idStr requestId ok data errorCode
        errorMessage errorData warnings action) = true) ∧
    (∀ (ts : Int) (idStr : String) (sessionVersion : Int) (requestId action : JVal)
        (data : Option JVal) (error errorCode : Option String)
        (warnings : List String) (forceLegacy : Bool),
      atMostOneB (make_response ts idStr sessionVersion requestId action data error
        errorCode warnings forceLegacy) = true ∧
      atMostOneB (bodyOf (make_response ts idStr sessionVersion requestId action data
        error errorCode warnings forceLegacy)) = true) ∧
    (∀ (ts : Int) (idStr : String) (m : JDict),
      jget m "type" = some (JVal.str "response") →
      ¬(hasKey m "error" = true ∧ populatedB m "data" = true) →
      atMostOneB (bodyOf (wrap_legacy_message ts idStr m)) = true) ∧
    (∀ (hasCat : String → Bool) (hasOp : String → String → Bool)
        (invoke : String → JDict → Except String String) (target : String)
        (params : JDict),
      atMostOneB (cmd_operator_call hasCat hasOp invoke target params) = true) ∧
    (∀ (St : Type) (setp : St → String → JVal → JVal → Except String St) (s : St)
        (target : String) (params : JDict),
      atMostOneB (cmd_property_set_batch setp s target params).2 = true) := by
  refine ⟨?_, ?_, ?_, ?_, ?_⟩
  · intro ts idStr requestId ok data errorCode errorMessage errorData warnings action
    exact ⟨create_response_exclusive _ _ _ _ _ _ _ _ _ _,
      atMostOneB_create_response_top _ _ _ _ _ _ _ _ _ _⟩
  · intro ts idStr sessionVersion requestId action data error errorCode warnings forceLegacy
    have h := make_response_exclusive ts idStr sessionVersion requestId action data
      error errorCode warnings forceLegacy
    exact ⟨h.1, h.2.1⟩
  · intro ts idStr m h hwf
    exact wrap_legacy_response_exclusive ts idStr m h hwf
  · intro hasCat hasOp invoke target params
    exact cmd_operator_call_exclusive hasCat hasOp invoke target params
  · intro St setp s target params
    exact cmd_property_set_batch_exclusive St setp s target params

/-- Witness for C9's conditional conjunct at a concrete legacy error
response. -/
theorem responses_never_populate_data_and_error_witness :
    (jget [("type", JVal.str "response"), ("id", JVal.str "r"),
        ("error", JVal.str "boom")] "type" = some (JVal.str "response")) ∧
    ¬(hasKey [("type", JVal.str "response"), ("id", JVal.str "r"),
        ("error", JVal.str "boom")] "error" = true ∧
      populatedB [("type", JVal.str "response"), ("id", JVal.str "r"),
        ("error", JVal.str "boom")] "data" = true) ∧
    atMostOneB (bodyOf (wrap_legacy_message 0 "a"
      [("type", JVal.str "response"), ("id", JVal.str "r"),
       ("error", JVal.str "boom")])) = true :=
  ⟨rfl, by decide,
   responses_never_populate_data_and_error.2.2.1 0 "a"
     [("type", JVal.str "response"), ("id", JVal.str "r"), ("error", JVal.str "boom")]
     rfl (by decide)⟩

/-- Helper: the batch loop distributes over list append — later items are
processed from the state the earlier items produced, counts add, and
error strings concatenate in order. -/
theorem setBatchLoop_append {St : Type} (setp : St → String → JVal → JVal → Except String St)
    (target : String) :
    ∀ (xs ys : List JVal) (s : St),
      setBatchLoop setp s target (xs ++ ys) =
        ((setBatchLoop setp (setBatchLoop setp s target xs).1 target ys).1,
         (setBatchLoop setp s target xs).2.1 +
           (setBatchLoop setp (setBatchLoop setp s target xs).1 target ys).2.1,
         (setBatchLoop setp s target xs).2.2 ++
           (setBatchLoop setp (setBatchLoop setp s target xs).1 target ys).2.2) := by
  intro xs
  induction xs with
  | nil => intro ys s; simp [setBatchLoop]
  | cons p xs ih =>
      intro ys s
      simp only [List.cons_append, setBatchLoop, List.append_eq]
      split
      · split_ifs
        · split
          · rename_i s2 _
            rw [ih]
            simp [Nat.add_right_comm]
          · rename_i e _
            rw [ih]
            simp
        · exact ih ys s
      · exact ih ys s

/-- C8: a `property.set_batch` request whose items are three valid
path/value pairs and one failing item returns success with `count = 3`
and exactly one warning naming the failed path, and the final host state
is the sequential application of the three valid writes — the failure
neither aborts nor rolls back the other items. -/
theorem set_batch_partial_failure {St : Type}
    (setp : St → String → JVal → JVal → Except String St) (s0 : St) (target : String)
    (pre post : List JVal) (xpath xval : JVal) (emsg : String) (s1 s2 : St)
    (hpre : setBatchLoop setp s0 target pre = (s1, pre.length, []))
    (hx1 : xpath ≠ JVal.null) (hx2 : xval ≠ JVal.null)
    (hxfail : setp s1 target xpath xval = Except.error emsg)
    (hpost : setBatchLoop setp s1 target post = (s2, post.length, []))
    (hcount : pre.length + post.length = 3) :
    cmd_property_set_batch setp s0 target
        [("properties",
          JVal.arr (pre ++ JVal.obj [("path", xpath), ("value", xval)] :: post))] =
      (s2, [("success", JVal.bool true), ("count", JVal.int 3),
            ("warnings", JVal.arr [JVal.str (pyStr xpath ++ ": " ++ emsg)])]) := by
  have hmid : setBatchLoop setp s1 target
      (JVal.obj [("path", xpath), ("value", xval)] :: post) =
        (s2, post.length, [pyStr xpath ++ ": " ++ emsg]) := by
    simp [setBatchLoop, jget, hx1, hx2, hxfail, hpost]
  have hloop : setBatchLoop setp s0 target
      (pre ++ JVal.obj [("path", xpath), ("value", xval)] :: post) =
        (s2, 3, [pyStr xpath ++ ": " ++ emsg]) := by
    rw [setBatchLoop_append setp target pre _ s0, hpre]
    simp only [hmid]
    simp [hcount]
  simp [cmd_property_set_batch, jget, hloop]

/-- Witness for C8 over a counter state with a failing middle item. -/
theorem set_batch_partial_failure_witness :
    setBatchLoop
        (fun (s : Nat) (_ : String) (p : JVal) (_ : JVal) =>
          if p = JVal.str "bad" then Except.error "boom" else Except.ok (s + 1))
        0 "objects['Cube']"
        [JVal.obj [("path", JVal.str "a"), ("value", JVal.int 1)],
         JVal.obj [("path", JVal.str "b"), ("value", JVal.int 2)]] = (2, 2, []) ∧
    cmd_property_set_batch
        (fun (s : Nat) (_ : String) (p : JVal) (_ : JVal) =>
          if p = JVal.str "bad" then Except.error "boom" else Except.ok (s + 1))
        0 "objects['Cube']"
        [("properties",
          JVal.arr
            ([JVal.obj [("path", JVal.str "a"), ("value", JVal.int 1)],
              JVal.obj [("path", JVal.str "b"), ("value", JVal.int 2)]] ++
             JVal.obj [("path", JVal.str "bad"), ("value", JVal.int 0)] ::
               [JVal.obj [("path", JVal.str "c"), ("value", JVal.int 3)]]))] =
      (3, [("success", JVal.bool true), ("count", JVal.int 3),
           ("warnings", JVal.arr [JVal.str (pyStr (JVal.str "bad") ++ ": " ++ "boom")])]) :=
  ⟨rfl,
   set_batch_partial_failure
     (fun (s : Nat) (_ : String) (p : JVal) (_ : JVal) =>
       if p = JVal.str "bad" then Except.error "boom" else Except.ok (s + 1))
     0 "objects['Cube']"
     [JVal.obj [("path", JVal.str "a"), ("value", JVal.int 1)],
      JVal.obj [("path", JVal.str "b"), ("value", JVal.int 2)]]
     [JVal.obj [("path", JVal.str "c"), ("value", JVal.int 3)]]
     (JVal.str "bad") (JVal.int 0) "boom" 2 3 rfl (by decide) (by decide) rfl rfl rfl⟩

/-- Helper: rewriting a key to the value it already holds is a no-op. -/
theorem smset_same {α : Type} (co : List (String × α)) (f : String) (cur : α)
    (h : smget co f = some cur) : smset co f cur = co := by
  induction co with
  | nil => simp [smget] at h
  | cons kv rest ih =>
      cases kv with
      | mk k1 v1 =>
        by_cases hk : k1 = f
        · subst hk
          simp only [smget, if_pos rfl] at h
          injection h with h
          simp [smset, h]
        · simp only [smget, if_neg hk] at h
          simp [smset, hk, ih h]


/-- Helper: one coalescing step on a bucket that already holds `cur`. -/
theorem coalesceStep_acc (p : JDict) (co : List (String × List JVal)) (f : String)
    (cur : List JVal) (h : smget co f = some cur) :
    coalesceStep p co f =
      smset co f
        (match jget p f with
         | some (JVal.arr xs) => setUpdate cur xs
         | _ => cur) := by
  cases hv : jget p f with
  | none => simp [coalesceStep, hv, smset_same co f cur h]
  | some v => cases v <;> simp [coalesceStep, hv, h, smset_same co f cur h]

/-- Helper: the coalescing loop extends the accumulated unions by one
payload. -/
theorem coalesce_fold_acc (ps : List JDict) (p : JDict) :
    COALESCE_FIELDS.foldl (coalesceStep p) (accCoalesced ps) = accCoalesced (ps ++ [p]) := by
  have hu : ∀ f, unionField (ps ++ [p]) f =
      (match jget p f with
       | some (JVal.arr xs) => setUpdate (unionField ps f) xs
       | _ => unionField ps f) := by
    intro f
    simp [unionField, List.foldl_append]
  simp only [accCoalesced, COALESCE_FIELDS, List.map, List.foldl]
  rw [coalesceStep_acc p _ "changed_object_ids" (unionField ps "changed_object_ids")
    (by simp [smget])]
  simp [smset]
  rw [coalesceStep_acc p _ "geometry_changed_ids" (unionField ps "geometry_changed_ids")
    (by simp [smget])]
  simp [smset]
  rw [coalesceStep_acc p _ "changed_objects" (unionField ps "changed_objects")
    (by simp [smget])]
  simp [smset]
  rw [coalesceStep_acc p _ "geometry_changed" (unionField ps "geometry_changed")
    (by simp [smget])]
  simp [smset]
  rw [hu "changed_object_ids", hu "geometry_changed_ids", hu "changed_objects",
    hu "geometry_changed"]
  exact ⟨rfl, rfl, rfl, rfl⟩

/-- Helper: the state after N submissions of one kind into a fresh
throttle state. -/
theorem throttle_fold (k : String) :
    ∀ (subs : List (Int × JDict)) (t : Int) (p : JDict),
      List.foldl (fun st tp => throttle_event tp.1 st k tp.2 none none) emptyThrottle
        (subs ++ [(t, p)]) = accThrottle k subs t p := by
  intro subs
  induction subs using List.reverseRecOn with
  | nil =>
      intro t p
      show throttle_event t emptyThrottle k p none none = accThrottle k [] t p
      simp only [throttle_event, truthyOptStr, emptyThrottle, accThrottle]
      norm_num [smget, smset]
      rw [show (emptyCoalesced : List (String × List JVal)) = accCoalesced [] from rfl,
        coalesce_fold_acc [] p]
      simp
  | append_singleton qs uq ih =>
      intro t p
      rw [List.foldl_append]
      rw [show List.foldl (fun st tp => throttle_event tp.1 st k tp.2 none none)
            emptyThrottle (qs ++ [uq]) = accThrottle k qs uq.1 uq.2 from ih uq.1 uq.2]
      show throttle_event t (accThrottle k qs uq.1 uq.2) k p none none =
        accThrottle k (qs ++ [uq]) t p
      simp only [throttle_event, truthyOptStr, accThrottle]
      norm_num [smget, smset]
      rw [coalesce_fold_acc]
      simp [List.map_append]

/-- Helper: membership in a set after a union update. -/
theorem mem_setUpdate (x : JVal) :
    ∀ (xs s : List JVal), x ∈ setUpdate s xs ↔ x ∈ s ∨ x ∈ xs := by
  intro xs
  induction xs with
  | nil => intro s; simp [setUpdate]
  | cons y ys ih =>
      intro s
      have hstep : setUpdate s (y :: ys) = setUpdate (if y ∈ s then s else s ++ [y]) ys := by
        simp [setUpdate, List.foldl]
      rw [hstep, ih]
      by_cases hy : y ∈ s
      · rw [if_pos hy]
        constructor
        · rintro (h | h)
          · exact Or.inl h
          · exact Or.inr (List.mem_cons_of_mem y h)
        · rintro (h | h)
          · exact Or.inl h
          · rcases List.mem_cons.mp h with h | h
            · exact Or.inl (h ▸ hy)
            · exact Or.inr h
      · rw [if_neg hy]
        simp only [List.mem_append, List.mem_singleton, List.mem_cons]
        tauto

/-- Helper: membership in the accumulated union of one field. -/
theorem mem_unionField (f : String) (x : JVal) :
    ∀ ps : List JDict, x ∈ unionField ps f ↔ ∃ q ∈ ps, x ∈ jgetArr q f := by
  have aux : ∀ (ps : List JDict) (acc : List JVal),
      x ∈ List.foldl (fun acc q =>
          match jget q f with
          | some (JVal.arr xs) => setUpdate acc xs
          | _ => acc) acc ps ↔ x ∈ acc ∨ ∃ q ∈ ps, x ∈ jgetArr q f := by
    intro ps
    induction ps with
    | nil => intro acc; simp
    | cons q qs ih =>
        intro acc
        simp only [List.foldl, ih]
        have hstep : (x ∈ (match jget q f with
            | some (JVal.arr xs) => setUpdate acc xs
            | _ => acc)) ↔ x ∈ acc ∨ x ∈ jgetArr q f := by
          cases hq : jget q f with
          | none => simp [jgetArr, hq]
          | some v =>
              cases v <;> simp [jgetArr, hq, mem_setUpdate]
        rw [hstep]
        simp only [List.mem_cons]
        constructor
        · rintro ((h | h) | ⟨q2, hq2, hx⟩)
          · exact Or.inl h
          · exact Or.inr ⟨q, Or.inl rfl, h⟩
          · exact Or.inr ⟨q2, Or.inr hq2, hx⟩
        · rintro (h | ⟨q2, hq2 | hq2, hx⟩)
          · exact Or.inl (Or.inl h)
          · exact Or.inl (Or.inr (hq2 ▸ hx))
          · exact Or.inr ⟨q2, hq2, hx⟩
  intro ps
  rw [unionField, aux]
  simp

/-- Helper: a field untouched by the flush substitution keeps the
payload's value. -/
theorem flushFieldStep_jget_ne (coalesced : List (String × List JVal)) (p : JDict)
    (f g : String) (h : g ≠ f) :
    jget (flushFieldStep coalesced p f) g = jget p g := by
  simp only [flushFieldStep]
  split
  · split_ifs
    · rfl
    · exact jget_jset_ne _ _ _ _ h
  · rfl

/-- Helper: the flush substitution leaves non-designated keys alone. -/
theorem flushFieldFold_jget_notmem (coalesced : List (String × List JVal)) (g : String) :
    ∀ (fields : List String) (p : JDict), g ∉ fields →
      jget (List.foldl (flushFieldStep coalesced) p fields) g = jget p g := by
  intro fields
  induction fields with
  | nil => intro p _; rfl
  | cons f fs ih =>
      intro p hg
      simp only [List.foldl]
      rw [ih _ (fun hmem => hg (List.mem_cons_of_mem f hmem))]
      exact flushFieldStep_jget_ne coalesced p f g (fun he => hg (he ▸ List.mem_cons_self f fs))

/-- Helper: the flush substitution replaces a designated field by its
non-empty accumulated set. -/
theorem flushFieldFold_jget_mem (coalesced : List (String × List JVal)) (g : String)
    (u : List JVal) (hg : smget coalesced g = some u) :
    ∀ (fields : List String) (p : JDict), fields.Nodup → g ∈ fields →
      jget (List.foldl (flushFieldStep coalesced) p fields) g =
        (if u.isEmpty then jget p g else some (JVal.arr u)) := by
  intro fields
  induction fields with
  | nil => intro p _ hmem; simp at hmem
  | cons f fs ih =>
      intro p hnod hmem
      simp only [List.foldl]
      rcases List.mem_cons.mp hmem with he | hmem2
      · subst he
        have hnotin : g ∉ fs := (List.nodup_cons.mp hnod).1
        rw [flushFieldFold_jget_notmem coalesced g fs _ hnotin]
        simp only [flushFieldStep, hg]
        split_ifs with hemp
        · rfl
        · exact jget_jset_self _ _ _
      · have hne : g ≠ f := by
          intro he
          exact (List.nodup_cons.mp hnod).1 (he ▸ hmem2)
        rw [ih _ (List.nodup_cons.mp hnod).2 hmem2, flushFieldStep_jget_ne _ _ _ _ hne]

/-- Helper: the flushed payload built from the accumulated state — scalar
fields keep the last payload's values, designated fields carry the
accumulated union when non-empty, and batch metadata appears exactly for
more than one coalesced occurrence. -/
theorem buildFlushData_acc (k : String) (subs : List (Int × JDict)) (t : Int) (p : JDict)
    (bid : String) :
    (∀ g, g ∉ COALESCE_FIELDS → g ≠ "batch_id" → g ≠ "batch_size" →
      jget (buildFlushData (accThrottle k subs t p) k p bid) g = jget p g) ∧
    (∀ f ∈ COALESCE_FIELDS,
      jget (buildFlushData (accThrottle k subs t p) k p bid) f =
        (if (unionField (subs.map Prod.snd ++ [p]) f).isEmpty then jget p f
         else some (JVal.arr (unionField (subs.map Prod.snd ++ [p]) f)))) ∧
    (0 < subs.length →
      jget (buildFlushData (accThrottle k subs t p) k p bid) "batch_size" =
        some (JVal.int (Int.ofNat (subs.length + 1))) ∧
      jget (buildFlushData (accThrottle k subs t p) k p bid) "batch_id" =
        some (JVal.str bid)) ∧
    (subs.length = 0 →
      jget (buildFlushData (accThrottle k subs t p) k p bid) "batch_size" =
        jget p "batch_size" ∧
      jget (buildFlushData (accThrottle k subs t p) k p bid) "batch_id" =
        jget p "batch_id") := by
  have hF : buildFlushData (accThrottle k subs t p) k p bid =
      (if subs.length + 1 > 1 then
        jset (jset (COALESCE_FIELDS.foldl
            (flushFieldStep (accCoalesced (subs.map Prod.snd ++ [p]))) p)
          "batch_id" (JVal.str bid)) "batch_size" (JVal.int (Int.ofNat (subs.length + 1)))
      else COALESCE_FIELDS.foldl
        (flushFieldStep (accCoalesced (subs.map Prod.snd ++ [p]))) p) := by
    simp [buildFlushData, accThrottle, smget]
  have hnod : COALESCE_FIELDS.Nodup := by decide
  refine ⟨?_, ?_, ?_, ?_⟩
  · intro g hg h1 h2
    rw [hF]
    rcases Nat.eq_zero_or_pos subs.length with hz | hpos
    · rw [if_neg (by omega)]
      exact flushFieldFold_jget_notmem _ g _ p hg
    · rw [if_pos (by omega)]
      rw [jget_jset_ne _ _ _ _ h2, jget_jset_ne _ _ _ _ h1]
      exact flushFieldFold_jget_notmem _ g _ p hg
  · intro f hf
    have hsm : smget (accCoalesced (subs.map Prod.snd ++ [p])) f =
        some (unionField (subs.map Prod.snd ++ [p]) f) := by
      fin_cases hf <;> simp [accCoalesced, COALESCE_FIELDS, smget]
    have hneq1 : f ≠ "batch_id" := by fin_cases hf <;> decide
    have hneq2 : f ≠ "batch_size" := by fin_cases hf <;> decide
    rw [hF]
    rcases Nat.eq_zero_or_pos subs.length with hz | hpos
    · rw [if_neg (by omega)]
      exact flushFieldFold_jget_mem _ f _ hsm _ p hnod hf
    · rw [if_pos (by omega)]
      rw [jget_jset_ne _ _ _ _ hneq2, jget_jset_ne _ _ _ _ hneq1]
      exact flushFieldFold_jget_mem _ f _ hsm _ p hnod hf
  · intro hpos
    rw [hF, if_pos (by omega)]
    constructor
    · exact jget_jset_self _ _ _
    · rw [jget_jset_ne _ _ _ _ (by decide)]
      exact jget_jset_self _ _ _
  · intro hz
    rw [hF, if_neg (by omega)]
    constructor
    · exact flushFieldFold_jget_notmem _ _ _ p (by decide)
    · exact flushFieldFold_jget_notmem _ _ _ p (by decide)

/-- C4: submitting N = `subs.length + 1` payloads of one kind within one
throttle window into a fresh state and then flushing produces exactly one
outbound message, whose non-designated (scalar) fields equal the last
submission's, whose designated array fields contain exactly the union of
all submissions' arrays, and which carries `batch_size = N` (plus a batch
id) exactly when N > 1. -/
theorem throttle_coalesces_to_one_message (k : String) (subs : List (Int × JDict))
    (t : Int) (p : JDict) (useV1 : Bool) (now envTs : Int)
    (envId batchId : String → String)
    (hwin : now - t ≥ THROTTLE_INTERVAL) :
    _flush_pending_events useV1 now envTs envId batchId
        (List.foldl (fun st tp => throttle_event tp.1 st k tp.2 none none) emptyThrottle
          (subs ++ [(t, p)])) =
      ([JVal.obj (buildFlushData (accThrottle k subs t p) k p (batchId k))],
       emptyThrottle, none) ∧
    (∀ g, g ∉ COALESCE_FIELDS → g ≠ "batch_id" → g ≠ "batch_size" →
      jget (buildFlushData (accThrottle k subs t p) k p (batchId k)) g = jget p g) ∧
    (∀ f ∈ COALESCE_FIELDS, ∀ x,
      x ∈ jgetArr (buildFlushData (accThrottle k subs t p) k p (batchId k)) f ↔
        ∃ q ∈ subs.map Prod.snd ++ [p], x ∈ jgetArr q f) ∧
    (0 < subs.length →
      jget (buildFlushData (accThrottle k subs t p) k p (batchId k)) "batch_size" =
        some (JVal.int (Int.ofNat (subs.length + 1))) ∧
      jget (buildFlushData (accThrottle k subs t p) k p (batchId k)) "batch_id" =
        some (JVal.str (batchId k))) ∧
    (subs.length = 0 →
      jget (buildFlushData (accThrottle k subs t p) k p (batchId k)) "batch_size" =
        jget p "batch_size" ∧
      jget (buildFlushData (accThrottle k subs t p) k p (batchId k)) "batch_id" =
        jget p "batch_id") := by
  obtain ⟨hscal, hfld, hbatch, hnobatch⟩ := buildFlushData_acc k subs t p (batchId k)
  refine ⟨?_, hscal, ?_, hbatch, hnobatch⟩
  · rw [throttle_fold]
    simp only [_flush_pending_events, accThrottle, List.isEmpty_cons, flushFold]
    rw [if_pos hwin]
    simp [wrapFlushEvent, smget, smdel, emptyThrottle, flushFold]
  · intro f hf x
    rw [jgetArr, hfld f hf]
    by_cases hemp : (unionField (subs.map Prod.snd ++ [p]) f).isEmpty
    · rw [if_pos hemp]
      have hu : unionField (subs.map Prod.snd ++ [p]) f = [] :=
        List.isEmpty_iff.mp hemp
      constructor
      · intro hx
        have hx2 : x ∈ jgetArr p f := by
          cases hjp : jget p f with
          | none => rw [hjp] at hx; simp at hx
          | some v =>
              rw [hjp] at hx
              cases v <;> simp_all [jgetArr]
        have : x ∈ unionField (subs.map Prod.snd ++ [p]) f :=
          (mem_unionField f x _).mpr ⟨p, by simp, hx2⟩
        rw [hu] at this
        simp at this
      · rintro ⟨q, hq, hx⟩
        have : x ∈ unionField (subs.map Prod.snd ++ [p]) f :=
          (mem_unionField f x _).mpr ⟨q, hq, hx⟩
        rw [hu] at this
        simp at this
    · rw [if_neg hemp]
      rw [show (match some (JVal.arr (unionField (subs.map Prod.snd ++ [p]) f)) with
          | some (JVal.arr xs) => xs
          | _ => []) = unionField (subs.map Prod.snd ++ [p]) f from rfl]
      exact mem_unionField f x _

/-- Witness for C4 with two submissions of `depsgraph_update`. -/
theorem throttle_coalesces_to_one_message_witness :
    ((200 : Int) - 10 ≥ THROTTLE_INTERVAL) ∧
    (_flush_pending_events false 200 0 (fun _ => "e") (fun _ => "b")
        (List.foldl (fun st tp => throttle_event tp.1 st "depsgraph_update" tp.2 none none)
          emptyThrottle
          ([(0, [("frame", JVal.int 1),
                 ("changed_object_ids", JVal.arr [JVal.str "A"])])] ++
           [(10, [("frame", JVal.int 2),
                  ("changed_object_ids", JVal.arr [JVal.str "B"])])])) =
      ([JVal.obj (buildFlushData
          (accThrottle "depsgraph_update"
            [(0, [("frame", JVal.int 1), ("changed_object_ids", JVal.arr [JVal.str "A"])])]
            10 [("frame", JVal.int 2), ("changed_object_ids", JVal.arr [JVal.str "B"])])
          "depsgraph_update"
          [("frame", JVal.int 2), ("changed_object_ids", JVal.arr [JVal.str "B"])] "b")],
       emptyThrottle, none)) :=
  ⟨by decide,
   (throttle_coalesces_to_one_message "depsgraph_update"
     [(0, [("frame", JVal.int 1), ("changed_object_ids", JVal.arr [JVal.str "A"])])]
     10 [("frame", JVal.int 2), ("changed_object_ids", JVal.arr [JVal.str "B"])]
     false 200 0 (fun _ => "e") (fun _ => "b") (by decide)).1⟩

/-- Helper: a successful attribute match consumes a non-empty prefix free
of `[`. -/
theorem matchAttr_some_inv (cs : List Char) (name : String) (rest : List Char)
    (h : matchAttr cs = some (name, rest)) :
    ∃ u, cs = u ++ rest ∧ '[' ∉ u ∧ u ≠ [] := by
  cases cs with
  | nil => simp [matchAttr] at h
  | cons c cs1 =>
      simp only [matchAttr] at h
      split_ifs at h with hc
      · injection h with h1
        have h2 : rest = List.dropWhile isIdentChar cs1 := ((Prod.mk.inj h1).2).symm
        refine ⟨c :: cs1.takeWhile isIdentChar, ?_, ?_, by simp⟩
        · rw [h2]
          simp [List.takeWhile_append_dropWhile]
        · intro hmem
          rcases List.mem_cons.mp hmem with he | hmem2
          · rw [← he] at hc
            simp [isIdentStart, Char.isAlpha, Char.isUpper, Char.isLower] at hc
          · have := List.mem_takeWhile_imp hmem2
            simp [isIdentChar, Char.isAlpha, Char.isUpper, Char.isLower, Char.isDigit] at this

/-- Helper: a successful string-key match consumes up to a closing `]`. -/
theorem matchStrKey_some_inv (cs : List Char) (kk : String) (rest : List Char)
    (h : matchStrKey cs = some (kk, rest)) : ∃ u, cs = u ++ ']' :: rest := by
  unfold matchStrKey at h
  split at h
  · rename_i q r0
    split_ifs at h with hq
    · split at h
      · rename_i q0 rest2 heq
        injection h with h1
        have h2 : rest = rest2 := ((Prod.mk.inj h1).2).symm
        subst h2
        refine ⟨'[' :: q :: (r0.takeWhile (fun c => c ≠ q) ++ [q0]), ?_⟩
        have hr0 : r0 = r0.takeWhile (fun c => c ≠ q) ++ (q0 :: ']' :: rest) := by
          conv_lhs => rw [← List.takeWhile_append_dropWhile (p := fun c => c ≠ q) (l := r0)]
          rw [heq]
        conv_lhs => rw [hr0]
        simp
      · exact absurd h (by simp)
  · exact absurd h (by simp)

/-- Helper: a successful integer-index match consumes up to a closing `]`. -/
theorem matchIntKey_some_inv (cs : List Char) (n : Int) (rest : List Char)
    (h : matchIntKey cs = some (n, rest)) : ∃ u, cs = u ++ ']' :: rest := by
  unfold matchIntKey at h
  split at h
  · rename_i r0
    rcases hsign : (match r0 with
        | '-' :: t => ((true : Bool), t)
        | _ => ((false : Bool), r0)) with ⟨neg, rest1⟩
    rw [hsign] at h
    dsimp only at h
    cases hd : (List.takeWhile Char.isDigit rest1).isEmpty with
    | true => simp [hd] at h
    | false =>
      simp only [hd, Bool.false_eq_true, if_false] at h
      split at h
      · rename_i rest2 heq
        injection h with h1
        have h2 : rest = rest2 := ((Prod.mk.inj h1).2).symm
        subst h2
        have hrt : rest1 = rest1.takeWhile Char.isDigit ++ (']' :: rest) := by
          conv_lhs => rw [← List.takeWhile_append_dropWhile (p := Char.isDigit) (l := rest1)]
          rw [heq]
        rcases r0 with _ | ⟨c, t⟩
        · have hr1 : rest1 = [] := ((Prod.mk.inj hsign).2).symm
          rw [hr1] at hrt
          simp at hrt
        · by_cases hc : c = '-'
          · subst hc
            have hr1 : rest1 = t := ((Prod.mk.inj hsign).2).symm
            refine ⟨'[' :: '-' :: rest1.takeWhile Char.isDigit, ?_⟩
            rw [← hr1]
            conv_lhs => rw [hrt]
            simp
          · have hr1 : rest1 = c :: t := by
              have := (Prod.mk.inj (by simpa [hc] using hsign)).2
              exact this.symm
            refine ⟨'[' :: rest1.takeWhile Char.isDigit, ?_⟩
            rw [← hr1]
            conv_lhs => rw [hrt]
            simp
      · exact absurd h (by simp)
  · exact absurd h (by simp)

/-- Helper: consuming a prefix free of `[` keeps an unterminated `[`
(with no `]` after it) in the remainder. -/
theorem split_no_open (u rest a b : List Char) (h : u ++ rest = a ++ '[' :: b)
    (hu : '[' ∉ u) : ∃ a2, rest = a2 ++ '[' :: b := by
  rcases List.append_eq_append_iff.mp h with ⟨c, hc1, hc2⟩ | ⟨c, hc1, hc2⟩
  · exact ⟨c, hc2⟩
  · cases c with
    | nil =>
        simp at hc2
        exact ⟨[], by simp [hc2]⟩
    | cons x c2 =>
        exfalso
        apply hu
        rw [hc1]
        have hx : x = '[' := (List.cons.inj hc2.symm).1
        exact List.mem_append.mpr (Or.inr (hx ▸ List.mem_cons_self x c2))

/-- Helper: consuming a prefix that ends in `]` keeps an unterminated `[`
(with no `]` after it) in the remainder. -/
theorem split_after_close (u rest a b : List Char) (h : u ++ ']' :: rest = a ++ '[' :: b)
    (hb : ']' ∉ b) : ∃ a2, rest = a2 ++ '[' :: b := by
  rcases List.append_eq_append_iff.mp h with ⟨c, hc1, hc2⟩ | ⟨c, hc1, hc2⟩
  · cases c with
    | nil => simp at hc2
    | cons x c2 =>
        have hc3 : rest = c2 ++ '[' :: b := (List.cons.inj hc2).2
        exact ⟨c2, hc3⟩
  · cases c with
    | nil => simp at hc2
    | cons x c2 =>
        exfalso
        apply hb
        have hc3 : b = c2 ++ ']' :: rest := ((List.cons.inj hc2.symm).2).symm
        rw [hc3]
        exact List.mem_append.mpr (Or.inr (List.mem_cons_self _ _))

/-- Helper: the tokenizer can never succeed on input containing a `[`
with no `]` anywhere after it. -/
theorem tokAux_no_ok :
    ∀ (fuel : Nat) (cs : List Char) (pos : Nat) (a b : List Char) (segs : List Seg),
      cs = a ++ '[' :: b → ']' ∉ b → tokAux fuel cs pos = Except.ok segs → False := by
  intro fuel
  induction fuel with
  | zero =>
      intro cs pos a b segs hcs hb hX
      simp [tokAux] at hX
  | succ fuel ih =>
      intro cs pos a b segs hcs hb hX
      simp only [tokAux] at hX
      split at hX
      · simp at hcs
      · rename_i rest
        rcases a with _ | ⟨c0, a2⟩
        · exact absurd (List.cons.inj hcs).1 (by decide)
        · exact ih rest (pos + 1) a2 b segs (List.cons.inj hcs).2 hb hX
      · split at hX
        · rename_i name rest heq2
          obtain ⟨u, hu, hnotin, _⟩ := matchAttr_some_inv cs name rest heq2
          rw [hcs] at hu
          obtain ⟨a2, ha2⟩ := split_no_open u rest a b hu.symm hnotin
          cases hrec : tokAux fuel rest (pos + (cs.length - rest.length)) with
          | ok segs2 => exact ih rest _ a2 b segs2 ha2 hb hrec
          | error e =>
              rw [hrec] at hX
              simp [Except.map] at hX
        · split at hX
          · rename_i kk rest heq2
            obtain ⟨u, hu⟩ := matchStrKey_some_inv cs kk rest heq2
            rw [hcs] at hu
            obtain ⟨a2, ha2⟩ := split_after_close u rest a b hu.symm hb
            cases hrec : tokAux fuel rest (pos + (cs.length - rest.length)) with
            | ok segs2 => exact ih rest _ a2 b segs2 ha2 hb hrec
            | error e =>
                rw [hrec] at hX
                simp [Except.map] at hX
          · split at hX
            · rename_i nn rest heq2
              obtain ⟨u, hu⟩ := matchIntKey_some_inv cs nn rest heq2
              rw [hcs] at hu
              obtain ⟨a2, ha2⟩ := split_after_close u rest a b hu.symm hb
              cases hrec : tokAux fuel rest (pos + (cs.length - rest.length)) with
              | ok segs2 => exact ih rest _ a2 b segs2 ha2 hb hrec
              | error e =>
                  rw [hrec] at hX
                  simp [Except.map] at hX
            · simp at hX

/-- C7: tokenizing `"objects['Cube'].modifiers[0].name"` yields exactly
`[attribute objects, key Cube, attribute modifiers, index 0, attribute
name]`; tokenizing the unterminated `"objects['Cube"` fails at position
7 with the remaining text; and every path containing a `[` with no `]`
anywhere after it fails with a position-tagged error. -/
theorem tokenize_example_and_unterminated_bracket :
    tokenize_path "objects['Cube'].modifiers[0].name" =
      Except.ok [Seg.attr "objects", Seg.key "Cube", Seg.attr "modifiers",
        Seg.index 0, Seg.attr "name"] ∧
    tokenize_path "objects['Cube" = Except.error (7, "['Cube") ∧
    (∀ (path : String) (a b : List Char),
      path.toList = a ++ '[' :: b → ']' ∉ b →
      ∃ i r, tokenize_path path = Except.error (i, r)) := by
  refine ⟨rfl, rfl, ?_⟩
  intro path a b hdec hb
  cases hX : tokenize_path path with
  | error e =>
      obtain ⟨i, r⟩ := e
      exact ⟨i, r, rfl⟩
  | ok segs =>
      exact absurd hX
        (fun hX2 => tokAux_no_ok (path.toList.length + 1) path.toList 0 a b segs hdec hb hX2)

/-- Witness for C7's universal part on `"objects['Cube"`. -/
theorem tokenize_example_and_unterminated_bracket_witness :
    ("objects['Cube".toList = "objects".toList ++ '[' :: "'Cube".toList) ∧
    (']' ∉ "'Cube".toList) ∧
    (∃ i r, tokenize_path "objects['Cube" = Except.error (i, r)) :=
  ⟨rfl, by decide,
   tokenize_example_and_unterminated_bracket.2.2 "objects['Cube"
     "objects".toList "'Cube".toList rfl (by decide)⟩
